import Mathlib

/-!
# ST7735 display driver: a shallow embedding of `ST7735.hpp`

The driver talks to the controller through two output lines (chip-select
`st7735_spi_cs_`, data/command-select `st7735_spi_rs_`), one serial transport
and `Thread::Sleep`.  Every method is embedded as a function that returns the
list of such external calls it makes, in order, together with the state it
changes (the members `width_`, `height_`, the function-static glyph buffer).
Machine integers are natural numbers reduced explicitly (`% 2^32` for
`uint32_t`, `% 65536` for `uint16_t`, `% 256` for `uint8_t`) wherever the C++
arithmetic can leave the range; arguments are taken to be in the range of their
C++ type.

Not embedded: the configuration of the lines, of the transport and of the
backlight generator, transport failures, and the glyph tables of `font.h`, which
are parameters (`Font`).

Layout: the embedding, the observers that read a trace the way the controller
does, the specification-side tables, lemmas, and one section of theorems for the
claims about the driver.
-/

namespace ST7735

/-! ## Data model -/

/-- Screen size, `enum ScreenType`. -/
inductive ScreenType where
  | SCREEN_1_8
  | SCREEN_0_9
  | SCREEN_1_8A
  deriving DecidableEq, Repr

/-- Panel type, `enum PanelType`. -/
inductive PanelType where
  | HANNSTAR_PANEL
  | BOE_PANEL
  deriving DecidableEq, Repr

/-- Display rotation, `enum Orientation` (values 0..3 in this order). -/
inductive Orientation where
  | PORTRAIT
  | PORTRAIT_ROT180
  | LANDSCAPE
  | LANDSCAPE_ROT180
  deriving DecidableEq, Repr

/-- Pixel format, `enum PixelFormat`. -/
inductive PixelFormat where
  | FORMAT_RGB444
  | FORMAT_RGB565
  | FORMAT_RGB666
  deriving DecidableEq, Repr

/-- Numeric value of an `Orientation` (`static_cast<uint8_t>(orientation_)`). -/
def Orientation.toNat : Orientation → Nat
  | .PORTRAIT => 0
  | .PORTRAIT_ROT180 => 1
  | .LANDSCAPE => 2
  | .LANDSCAPE_ROT180 => 3

/-- Numeric value of a `PixelFormat`, the byte written to the color-mode register. -/
def PixelFormat.toNat : PixelFormat → Nat
  | .FORMAT_RGB444 => 0x03
  | .FORMAT_RGB565 => 0x05
  | .FORMAT_RGB666 => 0x06

/-- One external call made by the driver. -/
inductive Event where
  /-- Chip-select line: `st7735_spi_cs_->Write(level)`. -/
  | cs (level : Bool)
  /-- Data/command-select line: `st7735_spi_rs_->Write(level)`. -/
  | rs (level : Bool)
  /-- One blocking transfer of `bytes`: `st7735_spi_->Write(.., spi_op_)`. -/
  | spi (bytes : List Nat)
  /-- Suspension: `LibXR::Thread::Sleep(ms)`. -/
  | sleep (ms : Nat)
  deriving DecidableEq, Repr

/-- The driver's member variables that the embedded methods read or write. -/
structure Dev where
  panel_ : PanelType
  type_ : ScreenType
  orientation_ : Orientation
  color_coding_ : PixelFormat
  width_ : Nat
  height_ : Nat
  deriving DecidableEq, Repr

/-! ## Constants -/

def SW_RESET : Nat := 0x01
def SLEEP_OUT : Nat := 0x11
def NORMAL_DISPLAY_OFF : Nat := 0x13
def DISPLAY_INVERSION_OFF : Nat := 0x20
def DISPLAY_INVERSION_ON : Nat := 0x21
def DISPLAY_ON : Nat := 0x29
def CASET : Nat := 0x2A
def RASET : Nat := 0x2B
def WRITE_RAM : Nat := 0x2C
def MADCTL : Nat := 0x36
def COLOR_MODE : Nat := 0x3A
def FRAME_RATE_CTRL1 : Nat := 0xB1
def FRAME_RATE_CTRL2 : Nat := 0xB2
def FRAME_RATE_CTRL3 : Nat := 0xB3
def FRAME_INVERSION_CTRL : Nat := 0xB4
def PWR_CTRL1 : Nat := 0xC0
def PWR_CTRL2 : Nat := 0xC1
def PWR_CTRL3 : Nat := 0xC2
def PWR_CTRL4 : Nat := 0xC3
def PWR_CTRL5 : Nat := 0xC4
def VCOMH_VCOML_CTRL1 : Nat := 0xC5
def PV_GAMMA_CTRL : Nat := 0xE0
def NV_GAMMA_CTRL : Nat := 0xE1

def WIDTH_1_8 : Nat := 128
def HEIGHT_1_8 : Nat := 160
def WIDTH_0_9 : Nat := 80
def HEIGHT_0_9 : Nat := 160

/-- Orientation to MADCTL table, `OrientationTab[4][2]`. -/
def OrientationTab : List (List Nat) :=
  [[0x40, 0xC0], [0x80, 0x00], [0x20, 0x60], [0xE0, 0xA0]]

def LCD_RGB : Nat := 0x00
def LCD_BGR : Nat := 0x08

/-- Modulus of `uint32_t` arithmetic. -/
def U32 : Nat := 4294967296

/-! ## Command/data framing -/

/-- `WriteReg(reg, data)`: `data` is the `data.size_` bytes at `data.addr_`. -/
def WriteReg (reg : Nat) (data : List Nat) : List Event :=
  [Event.cs false, Event.rs false, Event.spi [reg], Event.rs true] ++
    (if data.length > 0 then [Event.spi data] else []) ++ [Event.cs true]

/-- `SendData(data)`. -/
def SendData (data : List Nat) : List Event :=
  [Event.cs false, Event.spi data, Event.cs true]

/-! ## Geometry -/

/-- `SetWindow(Xpos0, Ypos0, Xpos1, Ypos1)`; all four are `uint32_t`. -/
def SetWindow (d : Dev) (Xpos0 Ypos0 Xpos1 Ypos1 : Nat) : List Event :=
  let p : Nat × Nat × Nat × Nat :=
    if d.orientation_.toNat ≤ Orientation.PORTRAIT_ROT180.toNat then
      if d.type_ = ScreenType.SCREEN_0_9 then
        if d.panel_ = PanelType.HANNSTAR_PANEL then
          ((Xpos0 + 26) % U32, (Xpos1 + 26) % U32, (Ypos0 + 1) % U32, (Ypos1 + 1) % U32)
        else
          ((Xpos0 + 24) % U32, (Xpos1 + 24) % U32, Ypos0, Ypos1)
      else if d.type_ = ScreenType.SCREEN_1_8A then
        if d.panel_ = PanelType.BOE_PANEL then
          ((Xpos0 + 2) % U32, (Xpos1 + 2) % U32, (Ypos0 + 1) % U32, (Ypos1 + 1) % U32)
        else (Xpos0, Xpos1, Ypos0, Ypos1)
      else (Xpos0, Xpos1, Ypos0, Ypos1)
    else
      if d.type_ = ScreenType.SCREEN_0_9 then
        if d.panel_ = PanelType.HANNSTAR_PANEL then
          ((Xpos0 + 1) % U32, (Xpos1 + 1) % U32, (Ypos0 + 26) % U32, (Ypos1 + 26) % U32)
        else
          (Xpos0, Xpos1, (Ypos0 + 24) % U32, (Ypos1 + 24) % U32)
      else if d.type_ = ScreenType.SCREEN_1_8A then
        if d.panel_ = PanelType.BOE_PANEL then
          ((Xpos0 + 1) % U32, (Xpos1 + 1) % U32, (Ypos0 + 2) % U32, (Ypos1 + 2) % U32)
        else (Xpos0, Xpos1, Ypos0, Ypos1)
      else (Xpos0, Xpos1, Ypos0, Ypos1)
  let X0 := p.1
  let X1 := p.2.1
  let Y0 := p.2.2.1
  let Y1 := p.2.2.2
  WriteReg CASET [] ++
  SendData [(X0 >>> 8) % 256] ++
  SendData [(X0 &&& 0xFF) % 256] ++
  SendData [(X1 >>> 8) % 256] ++
  SendData [(X1 &&& 0xFF) % 256] ++
  WriteReg RASET [] ++
  SendData [(Y0 >>> 8) % 256] ++
  SendData [(Y0 &&& 0xFF) % 256] ++
  SendData [(Y1 >>> 8) % 256] ++
  SendData [(Y1 &&& 0xFF) % 256] ++
  WriteReg WRITE_RAM []

/-! ## Pixel streaming -/

/-- The fill loop of `FillRect`: `for (i = 0; i < sizeof(buf) / 2; ++i)` writes
`buf[2 * i] = hi; buf[2 * i + 1] = lo`, here for `i` below `n`. -/
def fillBuf (hi lo : Nat) (buf : List Nat) (n : Nat) : List Nat :=
  (List.range n).foldl (fun b i => (b.set (2 * i) hi).set (2 * i + 1) lo) buf

/-- The send loop of `FillRect`: `while (remain > 0)`, a chunk of at most
`sizeof(buf) / 2 = 1024` pixels per iteration. -/
def sendChunks (buf : List Nat) (remain : Nat) : List Event :=
  if remain > 0 then
    let chunk := if remain > 1024 then 1024 else remain
    SendData (buf.take (chunk * 2)) ++ sendChunks buf (remain - chunk)
  else []
termination_by remain
decreasing_by
  split <;> omega

/-- `FillRect(Xpos, Ypos, Width, Height, Color)`; all five are `uint32_t`.  The
function-static `buf[2048]` is overwritten entirely by the fill loop before it is
read, so its previous content (zeros at first) does not matter. -/
def FillRect (d : Dev) (Xpos Ypos Width Height Color : Nat) : List Event :=
  if (Xpos + Width) % U32 > d.width_ ∨ (Ypos + Height) % U32 > d.height_ then []
  else
    let pixelCount := (Width * Height) % U32
    let remain := pixelCount
    let hi := (Color >>> 8) % 256
    let lo := (Color &&& 0xFF) % 256
    let buf := fillBuf hi lo (List.replicate 2048 0) (2048 / 2)
    SetWindow d Xpos Ypos ((Xpos + Width + (U32 - 1)) % U32) ((Ypos + Height + (U32 - 1)) % U32) ++
      sendChunks buf remain

/-- `FillRGBRect(Xpos, Ypos, pData, Width, Height)`: `pData` is the byte buffer the
pointer refers to. -/
def FillRGBRect (d : Dev) (Xpos Ypos : Nat) (pData : List Nat) (Width Height : Nat) :
    List Event :=
  if (Xpos + Width) % U32 > d.width_ ∨ (Ypos + Height) % U32 > d.height_ then []
  else
    SetWindow d Xpos Ypos ((Xpos + Width + (U32 - 1)) % U32) ((Ypos + Height + (U32 - 1)) % U32) ++
      SendData (pData.take ((Width * Height * 2) % U32))

/-! ## Bring-up -/

/-- `SetDisplayWindow(Xpos, Ypos)`; both are `uint32_t`. -/
def SetDisplayWindow (d : Dev) (Xpos Ypos : Nat) : List Event :=
  let p : Nat × Nat :=
    if d.orientation_.toNat ≤ Orientation.PORTRAIT_ROT180.toNat then
      if d.type_ = ScreenType.SCREEN_0_9 then
        if d.panel_ = PanelType.HANNSTAR_PANEL then
          ((Xpos + 26) % U32, (Ypos + 1) % U32)
        else
          ((Xpos + 24) % U32, (Ypos + 0) % U32)
      else if d.type_ = ScreenType.SCREEN_1_8A then
        if d.panel_ = PanelType.BOE_PANEL then
          ((Xpos + 2) % U32, (Ypos + 1) % U32)
        else (Xpos, Ypos)
      else (Xpos, Ypos)
    else
      if d.type_ = ScreenType.SCREEN_0_9 then
        if d.panel_ = PanelType.HANNSTAR_PANEL then
          ((Xpos + 1) % U32, (Ypos + 26) % U32)
        else
          ((Xpos + 1) % U32, (Ypos + 24) % U32)
      else if d.type_ = ScreenType.SCREEN_1_8A then
        if d.panel_ = PanelType.BOE_PANEL then
          ((Xpos + 1) % U32, (Ypos + 2) % U32)
        else (Xpos, Ypos)
      else (Xpos, Ypos)
  let X := p.1
  let Y := p.2
  let XE := (X + d.width_ + (U32 - 1)) % U32
  let YE := (Y + d.height_ + (U32 - 1)) % U32
  WriteReg CASET [] ++
  SendData [(X >>> 8) % 256] ++
  SendData [(X &&& 0xFF) % 256] ++
  SendData [(XE >>> 8) % 256] ++
  SendData [(XE &&& 0xFF) % 256] ++
  WriteReg RASET [] ++
  SendData [(Y >>> 8) % 256] ++
  SendData [(Y &&& 0xFF) % 256] ++
  SendData [(YE >>> 8) % 256] ++
  SendData [(YE &&& 0xFF) % 256]

/-- `SetOrientation()`: sets `width_` and `height_`, programs the full-screen
window and writes MADCTL.  Returns the updated members and the calls made. -/
def SetOrientation (d : Dev) : Dev × List Event :=
  let d1 : Dev :=
    if d.orientation_ = Orientation.PORTRAIT ∨ d.orientation_ = Orientation.PORTRAIT_ROT180 then
      if d.type_ = ScreenType.SCREEN_0_9 then
        { d with width_ := WIDTH_0_9, height_ := HEIGHT_0_9 }
      else if d.type_ = ScreenType.SCREEN_1_8 ∨ d.type_ = ScreenType.SCREEN_1_8A then
        { d with width_ := WIDTH_1_8, height_ := HEIGHT_1_8 }
      else d
    else
      if d.type_ = ScreenType.SCREEN_0_9 then
        { d with width_ := HEIGHT_0_9, height_ := WIDTH_0_9 }
      else if d.type_ = ScreenType.SCREEN_1_8 ∨ d.type_ = ScreenType.SCREEN_1_8A then
        { d with width_ := HEIGHT_1_8, height_ := WIDTH_1_8 }
      else d
  let tmp :=
    if d1.panel_ = PanelType.HANNSTAR_PANEL then
      ((((OrientationTab.getD d1.orientation_.toNat []).getD 1 0) % 256) ||| LCD_BGR) % 256
    else
      ((((OrientationTab.getD d1.orientation_.toNat []).getD 1 0) % 256) ||| LCD_RGB) % 256
  (d1, SetDisplayWindow d1 0 0 ++ WriteReg MADCTL [tmp])

/-- `Init()`: the bring-up program.  Returns the members as `SetOrientation` leaves
them and the calls made. -/
def Init (d : Dev) : Dev × List Event :=
  let r := SetOrientation d
  (r.1, List.flatten [
    WriteReg SW_RESET [],
    [Event.sleep 120],
    WriteReg SW_RESET [],
    [Event.sleep 120],
    WriteReg SLEEP_OUT [0x00],
    WriteReg FRAME_RATE_CTRL1 [],
    SendData [0x01], SendData [0x2C], SendData [0x2D],
    WriteReg FRAME_RATE_CTRL2 [0x01],
    SendData [0x2C], SendData [0x2D],
    WriteReg FRAME_RATE_CTRL3 [0x01],
    SendData [0x2C], SendData [0x2D], SendData [0x01], SendData [0x2C], SendData [0x2D],
    WriteReg FRAME_INVERSION_CTRL [0x07],
    WriteReg PWR_CTRL1 [0xA2],
    SendData [0x02], SendData [0x84],
    WriteReg PWR_CTRL2 [0xC5],
    WriteReg PWR_CTRL3 [0x0A],
    SendData [0x00],
    WriteReg PWR_CTRL4 [0x8A],
    SendData [0x2A],
    WriteReg PWR_CTRL5 [0x8A],
    SendData [0xEE],
    WriteReg VCOMH_VCOML_CTRL1 [0x0E],
    (if d.panel_ = PanelType.HANNSTAR_PANEL then WriteReg DISPLAY_INVERSION_ON []
     else WriteReg DISPLAY_INVERSION_OFF []),
    WriteReg COLOR_MODE [d.color_coding_.toNat],
    WriteReg PV_GAMMA_CTRL [0x02],
    SendData [0x1C], SendData [0x07], SendData [0x12], SendData [0x37], SendData [0x32],
    SendData [0x29], SendData [0x2D], SendData [0x29], SendData [0x25], SendData [0x2B],
    SendData [0x39], SendData [0x00], SendData [0x01], SendData [0x03], SendData [0x10],
    WriteReg NV_GAMMA_CTRL [0x03],
    SendData [0x1D], SendData [0x07], SendData [0x06], SendData [0x2E], SendData [0x2C],
    SendData [0x29], SendData [0x2D], SendData [0x2E], SendData [0x2E], SendData [0x37],
    SendData [0x3F], SendData [0x00], SendData [0x00], SendData [0x02], SendData [0x10],
    WriteReg NORMAL_DISPLAY_OFF [0x00],
    WriteReg DISPLAY_ON [0x00],
    r.2])

/-! ## Font rasterizer -/

/-- The two glyph tables of `font.h`, which is not among the sources: they are
parameters of the embedding.  `asc2_1206 n t` stands for `asc2_1206[n][t]`. -/
structure Font where
  asc2_1206 : Nat → Nat → Nat
  asc2_1608 : Nat → Nat → Nat

/-- The locals of `ShowChar` that its loops update, with the function-static
`write[16 * 8]` buffer. -/
structure GlyphState where
  write : List Nat
  count : Nat
  x : Nat
  y : Nat
  deriving DecidableEq, Repr

/-- How a part of the loops of `ShowChar` ends. -/
inductive Flow where
  /-- A `return` inside the loops was taken; `write` is the static buffer then. -/
  | returned (write : List Nat)
  /-- The inner loop was left by `break` or by its condition. -/
  | running (s : GlyphState)
  deriving DecidableEq, Repr

/-- The expression `(c & 0xFF) << 8 | c >> 8` stored in a `uint16_t`. -/
def swapBytes (c : Nat) : Nat :=
  (((c &&& 0xFF) <<< 8) ||| (c >>> 8)) % 65536

/-- The inner loop of `ShowChar`, `for (t1 = 0; t1 < 8; t1++)`, with `n` iterations
left to run. -/
def innerLoop (d : Dev) (colortemp back_color length size t y0 : Nat) :
    Nat → Nat → GlyphState → Flow
  | 0, _, s => Flow.running s
  | n + 1, temp, s =>
    let point_color := if temp &&& 0x80 ≠ 0 then swapBytes colortemp else swapBytes back_color
    let write := s.write.set (s.count * length + t / 2) point_color
    let count := (s.count + 1) % 65536
    let count := if count ≥ size then 0 else count
    let temp := (temp <<< 1) % 256
    let y := (s.y + 1) % 65536
    if y ≥ d.height_ then Flow.returned write
    else if (y : Int) - (y0 : Int) = (size : Int) then
      let y := y0
      let x := (s.x + 1) % 65536
      if x ≥ d.width_ then Flow.returned write
      else Flow.running { write := write, count := count, x := x, y := y }
    else innerLoop d colortemp back_color length size t y0 n temp
      { write := write, count := count, x := s.x, y := y }

/-- The outer loop of `ShowChar`, `for (t = 0; t < size; t++)`, with `n` iterations
left to run (`size - t` of them: `t` never reaches 256). -/
def outerLoop (f : Font) (d : Dev) (colortemp back_color length size num y0 : Nat) :
    Nat → Nat → GlyphState → Flow
  | 0, _, s => Flow.running s
  | n + 1, t, s =>
    let temp := (if size = 12 then f.asc2_1206 num t else f.asc2_1608 num t) % 256
    match innerLoop d colortemp back_color length size t y0 8 temp s with
    | Flow.returned w => Flow.returned w
    | Flow.running s1 => outerLoop f d colortemp back_color length size num y0 n (t + 1) s1

/-- Object representation of a `uint16_t` array read through `uint8_t *` on a
little-endian host (the cast `(uint8_t *)&write`). -/
def bytesOfWords (ws : List Nat) : List Nat :=
  ws.flatMap (fun v => [v % 256, (v / 256) % 256])

/-- `ShowChar(point_color, back_color, x, y, num, size)`; `write` is the content of
the function-static glyph buffer on entry.  Returns the buffer on exit and the
calls made. -/
def ShowChar (f : Font) (d : Dev) (write : List Nat)
    (point_color back_color x y num size : Nat) : List Nat × List Event :=
  let y0 := y
  let x0 := x
  let colortemp := point_color
  let length := if size = 12 then 6 else 8
  let num := (num + 256 - 32) % 256
  let count := 0
  match outerLoop f d colortemp back_color length size num y0 size 0
      { write := write, count := count, x := x, y := y } with
  | Flow.returned w => (w, [])
  | Flow.running s =>
    (s.write, FillRGBRect d x0 y0 (bytesOfWords s.write) (if size = 12 then 6 else 8) size)

/-- The loop of `ShowString` over the bytes of `data` (the text before its
terminating NUL); `x0` is the `uint8_t` copy of the start column, `width` and
`height` the already offset bounds. -/
def stringLoop (f : Font) (d : Dev) (point_color back_color x0 width height size : Nat) :
    List Nat → List Nat → Nat → Nat → List Nat × List Event
  | [], write, _, _ => (write, [])
  | c :: data, write, x, y =>
    if c ≤ 0x7E ∧ c ≥ 0x20 then
      let p : Nat × Nat := if x ≥ width then (x0, (y + size) % 65536) else (x, y)
      let x := p.1
      let y := p.2
      if y ≥ height then (write, [])
      else
        let r := ShowChar f d write point_color back_color x y c size
        let x := (x + size / 2) % 65536
        let k := stringLoop f d point_color back_color x0 width height size data r.1 x y
        (k.1, r.2 ++ k.2)
    else (write, [])

/-- `ShowString(point_color, back_color, x, y, width, height, size, data)`. -/
def ShowString (f : Font) (d : Dev) (write : List Nat)
    (point_color back_color x y width height size : Nat) (data : List Nat) :
    List Nat × List Event :=
  let x0 := x % 256
  let width := (width + x) % 65536
  let height := (height + y) % 65536
  stringLoop f d point_color back_color x0 width height size data write x y

/-- The constructor from the first bus traffic on: both lines are driven high,
`Init()` runs, the screen is filled with `Color::BLUE` (0x001F) and the status
string is drawn in `Color::RED` (0xF800) on `Color::BLACK`.  The members start
with `width_ = 0`, `height_ = 0`; the glyph buffer starts zeroed. -/
def construct (f : Font) (panel : PanelType) (type : ScreenType) (orientation : Orientation)
    (format : PixelFormat) : Dev × List Nat × List Event :=
  let d0 : Dev := { panel_ := panel, type_ := type, orientation_ := orientation,
                    color_coding_ := format, width_ := 0, height_ := 0 }
  let r := Init d0
  let d := r.1
  let text : List Nat := "XRobot ST7735 Driver".toList.map Char.toNat
  let s := ShowString f d (List.replicate 128 0) 0xF800 0x0000 0 58 (d.width_ % 65536) 16 16 text
  (d, s.1, [Event.cs true, Event.rs true] ++ r.2 ++ FillRect d 0 0 d.width_ d.height_ 0x001F ++ s.2)

/-! ## What the controller observes -/

/-- The transfers of a trace, each tagged with the level of the data/command-select
line at the time it is made (`false` = command, `true` = data); the first argument
is the level of the line before the trace. -/
def busView : Bool → List Event → List (Bool × List Nat)
  | _, [] => []
  | _, Event.rs l :: es => busView l es
  | rs, Event.spi b :: es => (rs, b) :: busView rs es
  | rs, Event.cs _ :: es => busView rs es
  | rs, Event.sleep _ :: es => busView rs es

/-- The command bytes of a trace, in order: the bytes transferred while the
data/command-select line is low.  The line idles high. -/
def commandCodes (tr : List Event) : List Nat :=
  ((busView true tr).filter (fun p => !p.1)).flatMap (fun p => p.2)

/-- The durations of the delays of a trace, in order. -/
def delays : List Event → List Nat
  | [] => []
  | Event.sleep n :: es => n :: delays es
  | _ :: es => delays es

/-- An addressing window in controller coordinates. -/
structure Window where
  x0 : Nat
  x1 : Nat
  y0 : Nat
  y1 : Nat
  deriving DecidableEq, Repr

/-- The addressing window a trace programs first: a column-address command followed
by four one-byte data transfers and a row-address command followed by four more,
each pair of bytes read as a big-endian 16-bit value. -/
def sentWindow (tr : List Event) : Option Window :=
  match busView true tr with
  | (false, [0x2A]) :: (true, [a]) :: (true, [b]) :: (true, [c]) :: (true, [e]) ::
    (false, [0x2B]) :: (true, [g]) :: (true, [h]) :: (true, [i]) :: (true, [j]) :: _ =>
    some { x0 := a * 256 + b, x1 := c * 256 + e, y0 := g * 256 + h, y1 := i * 256 + j }
  | _ => none

/-- The transfers that follow the first write-to-frame-memory command (0x2C). -/
def afterRamWrite : List (Bool × List Nat) → List (Bool × List Nat)
  | [] => []
  | p :: rest => if p.1 = false ∧ p.2 = [0x2C] then rest else afterRamWrite rest

/-- The payloads written to frame memory by a trace: the data transfers that follow
the first write-to-frame-memory command (0x2C), up to the next command. -/
def ramWrites (tr : List Event) : List (List Nat) :=
  ((afterRamWrite (busView true tr)).takeWhile (fun p => p.1)).map (fun p => p.2)

/-! ## Specification-side tables -/

/-- Spec-side restatement (section 3, ScreenVariant): native (width, height) of a
screen variant before rotation. -/
def nativeSize : ScreenType → Nat × Nat
  | .SCREEN_0_9 => (80, 160)
  | .SCREEN_1_8 => (128, 160)
  | .SCREEN_1_8A => (128, 160)

/-- Spec-side restatement of `ResolveDimensions(ScreenVariant, Rotation)`: the
native size for the two portrait rotations, the swapped pair for the landscape ones. -/
def ResolveDimensions (t : ScreenType) (o : Orientation) : Nat × Nat :=
  match o with
  | .PORTRAIT => nativeSize t
  | .PORTRAIT_ROT180 => nativeSize t
  | .LANDSCAPE => ((nativeSize t).2, (nativeSize t).1)
  | .LANDSCAPE_ROT180 => ((nativeSize t).2, (nativeSize t).1)

/-- Spec-side restatement of `ResolveMadctlValue(PanelVariant, Rotation)` with the
column made explicit: the rotation-table entry ORed with the subpixel-order bit. -/
def ResolveMadctlValue (p : PanelType) (o : Orientation) (column : Nat) : Nat :=
  ((OrientationTab.getD o.toNat []).getD column 0) |||
    (match p with
     | .HANNSTAR_PANEL => 0x08
     | .BOE_PANEL => 0x00)

/-- The pixel payload of `k` pixels of one color: `hi`, `lo` repeated. -/
def pixels (hi lo k : Nat) : List Nat := (List.replicate k [hi, lo]).flatten

/-- Spec-side restatement of the chunking of `n` pixels through the 1024-pixel
staging buffer: full chunks of 1024, then the remainder if there is one. -/
def chunkPlan (n : Nat) : List Nat :=
  List.replicate (n / 1024) 1024 ++ (if n % 1024 = 0 then [] else [n % 1024])

/-- The offset (dx, dy) that `SetWindow` adds to both corners, read off its branches. -/
def windowOffset (d : Dev) : Nat × Nat :=
  match d.orientation_, d.type_, d.panel_ with
  | .PORTRAIT, .SCREEN_0_9, .HANNSTAR_PANEL => (26, 1)
  | .PORTRAIT_ROT180, .SCREEN_0_9, .HANNSTAR_PANEL => (26, 1)
  | .PORTRAIT, .SCREEN_0_9, .BOE_PANEL => (24, 0)
  | .PORTRAIT_ROT180, .SCREEN_0_9, .BOE_PANEL => (24, 0)
  | .PORTRAIT, .SCREEN_1_8A, .BOE_PANEL => (2, 1)
  | .PORTRAIT_ROT180, .SCREEN_1_8A, .BOE_PANEL => (2, 1)
  | .LANDSCAPE, .SCREEN_0_9, .HANNSTAR_PANEL => (1, 26)
  | .LANDSCAPE_ROT180, .SCREEN_0_9, .HANNSTAR_PANEL => (1, 26)
  | .LANDSCAPE, .SCREEN_0_9, .BOE_PANEL => (0, 24)
  | .LANDSCAPE_ROT180, .SCREEN_0_9, .BOE_PANEL => (0, 24)
  | .LANDSCAPE, .SCREEN_1_8A, .BOE_PANEL => (1, 2)
  | .LANDSCAPE_ROT180, .SCREEN_1_8A, .BOE_PANEL => (1, 2)
  | _, _, _ => (0, 0)

/-- The claim of C7 on one trace: the first window the trace programs lies within
a `W` x `H` display. -/
def windowWithin (W H : Nat) (tr : List Event) : Prop :=
  ∃ win, sentWindow tr = some win ∧
    win.x0 ≤ win.x1 ∧ win.x1 < W ∧ win.y0 ≤ win.y1 ∧ win.y1 < H

/-- The color the inner loop of `ShowChar` stores for the current glyph byte. -/
def glyphColor (fg bg temp : Nat) : Nat :=
  if temp &&& 0x80 ≠ 0 then swapBytes fg else swapBytes bg

/-- The glyph byte after `k` rounds of `temp <<= 1`. -/
def shiftRun : Nat → Nat → Nat
  | 0, temp => temp
  | k + 1, temp => shiftRun k ((temp <<< 1) % 256)

/-- The buffer after `k` rounds of the inner loop body, starting at row `count`;
`q` is `t / 2`. -/
def paintRun (fg bg L q : Nat) : Nat → Nat → List Nat → Nat → List Nat
  | 0, _, w, _ => w
  | k + 1, temp, w, count =>
    paintRun fg bg L q k ((temp <<< 1) % 256)
      (w.set (count * L + q) (glyphColor fg bg temp)) (count + 1)

/-- The pixel the 16-row path of `ShowChar` stores for row `r`, column `c`. -/
def glyphPixel16 (f : Font) (fg bg num r c : Nat) : Nat :=
  glyphColor fg bg (shiftRun (r % 8) (f.asc2_1608 num (2 * c + r / 8) % 256))

/-- The columns before `c` of the 16-row glyph are in the buffer. -/
def painted16 (f : Font) (fg bg num c : Nat) (w : List Nat) : Prop :=
  ∀ c', c' < c → ∀ r, r < 16 → w.getD (r * 8 + c') 0 = glyphPixel16 f fg bg num r c'

/-- The data bytes at the head of a list of transfers: the payloads up to the next
command, joined. -/
def dataRun : List (Bool × List Nat) → List Nat
  | [] => []
  | (true, bs) :: rest => bs ++ dataRun rest
  | (false, _) :: _ => []

/-- The commands of a list of transfers as the controller frames them: each command
transfer with all the data bytes that follow it up to the next command. -/
def commandFrames : List (Bool × List Nat) → List (List Nat × List Nat)
  | [] => []
  | (true, _) :: rest => commandFrames rest
  | (false, bs) :: rest => (bs, dataRun rest) :: commandFrames rest

/-- One call of the framing layer. -/
inductive Call where
  | writeReg (reg : Nat) (data : List Nat)
  | sendData (data : List Nat)
  deriving DecidableEq, Repr

/-- The external calls one framing call makes. -/
def Call.run : Call → List Event
  | Call.writeReg reg data => WriteReg reg data
  | Call.sendData data => SendData data

/-- The trace of a sequence of framing calls. -/
def runCalls (calls : List Call) : List Event :=
  calls.flatMap Call.run

/-- The levels (chip-select, data/command-select) of the two lines after a trace,
from the levels before it. -/
def linesAfter : Bool × Bool → List Event → Bool × Bool
  | l, [] => l
  | l, Event.cs v :: es => linesAfter (v, l.2) es
  | l, Event.rs v :: es => linesAfter (l.1, v) es
  | l, Event.spi _ :: es => linesAfter l es
  | l, Event.sleep _ :: es => linesAfter l es

/-- The transfers of a trace, each with the levels of chip-select and of
data/command-select at the time it is made. -/
def lineView : Bool × Bool → List Event → List (Bool × Bool × List Nat)
  | _, [] => []
  | l, Event.cs v :: es => lineView (v, l.2) es
  | l, Event.rs v :: es => lineView (l.1, v) es
  | l, Event.spi b :: es => (l.1, l.2, b) :: lineView l es
  | l, Event.sleep _ :: es => lineView l es

/-- Spec-side restatement of the framing contract (section 4.1): the transfers one
call is to make, as (chip-select level, data/command-select level, bytes). -/
def Call.contract : Call → List (Bool × Bool × List Nat)
  | Call.writeReg reg data =>
    (false, false, [reg]) :: (if data.length > 0 then [(false, true, data)] else [])
  | Call.sendData data => [(false, true, data)]

/-- The test of the loop of `ShowString`: a byte from space to tilde. -/
def printable (c : Nat) : Bool :=
  decide (c ≤ 0x7E ∧ c ≥ 0x20)

/-- The calls of `ShowChar` that the loop of `ShowString` makes, as (x, y, character):
the loop `stringLoop` with the cursor arithmetic only. -/
def stringCalls (x0 width height size : Nat) : List Nat → Nat → Nat → List (Nat × Nat × Nat)
  | [], _, _ => []
  | c :: data, x, y =>
    if c ≤ 0x7E ∧ c ≥ 0x20 then
      let p : Nat × Nat := if x ≥ width then (x0, (y + size) % 65536) else (x, y)
      let x := p.1
      let y := p.2
      if y ≥ height then []
      else (x, y, c) :: stringCalls x0 width height size data ((x + size / 2) % 65536) y
    else []

/-- The calls of `ShowChar` that `ShowString(.., x, y, width, height, size, data)` makes. -/
def ShowStringCalls (x y width height size : Nat) (data : List Nat) : List (Nat × Nat × Nat) :=
  stringCalls (x % 256) ((width + x) % 65536) ((height + y) % 65536) size data x y

/-- A list of `ShowChar` calls made one after the other, the glyph buffer handed on
from each to the next. -/
def drawCalls (f : Font) (d : Dev) (point_color back_color size : Nat) :
    List (Nat × Nat × Nat) → List Nat → List Nat × List Event
  | [], write => (write, [])
  | call :: rest, write =>
    let r := ShowChar f d write point_color back_color call.1 call.2.1 call.2.2 size
    let k := drawCalls f d point_color back_color size rest r.1
    (k.1, r.2 ++ k.2)

/-- The glyph buffer at the end of a part of the loops of `ShowChar`. -/
def Flow.buf : Flow → List Nat
  | Flow.returned w => w
  | Flow.running s => s.write

/-- The inner loop of `ShowChar` with a record of the indices of `write` it assigns:
the body of `innerLoop`, returning next to its outcome the list of the values of
`count * length + t / 2` at each `write[..] = point_color`, in order. -/
def innerLoopLog (d : Dev) (colortemp back_color length size t y0 : Nat) :
    Nat → Nat → GlyphState → Flow × List Nat
  | 0, _, s => (Flow.running s, [])
  | n + 1, temp, s =>
    let point_color := if temp &&& 0x80 ≠ 0 then swapBytes colortemp else swapBytes back_color
    let index := s.count * length + t / 2
    let write := s.write.set index point_color
    let count := (s.count + 1) % 65536
    let count := if count ≥ size then 0 else count
    let temp := (temp <<< 1) % 256
    let y := (s.y + 1) % 65536
    if y ≥ d.height_ then (Flow.returned write, [index])
    else if (y : Int) - (y0 : Int) = (size : Int) then
      let y := y0
      let x := (s.x + 1) % 65536
      if x ≥ d.width_ then (Flow.returned write, [index])
      else (Flow.running { write := write, count := count, x := x, y := y }, [index])
    else
      let r := innerLoopLog d colortemp back_color length size t y0 n temp
        { write := write, count := count, x := s.x, y := y }
      (r.1, index :: r.2)

/-- The outer loop of `ShowChar` with the record of the assigned indices. -/
def outerLoopLog (f : Font) (d : Dev) (colortemp back_color length size num y0 : Nat) :
    Nat → Nat → GlyphState → Flow × List Nat
  | 0, _, s => (Flow.running s, [])
  | n + 1, t, s =>
    let temp := (if size = 12 then f.asc2_1206 num t else f.asc2_1608 num t) % 256
    let r := innerLoopLog d colortemp back_color length size t y0 8 temp s
    match r.1 with
    | Flow.returned w => (Flow.returned w, r.2)
    | Flow.running s1 =>
      let k := outerLoopLog f d colortemp back_color length size num y0 n (t + 1) s1
      (k.1, r.2 ++ k.2)

/-- The calls `Init` makes do not depend on the previous `width_`, `height_`. -/
theorem Init_trace_frame (p : PanelType) (t : ScreenType) (o : Orientation) (c : PixelFormat)
    (w h : Nat) : (Init ⟨p, t, o, c, w, h⟩).2 = (Init ⟨p, t, o, c, 0, 0⟩).2 := by
  cases t <;> cases o <;> rfl

/-- The members after `Init`: only `width_` and `height_` change, to the resolved
dimensions. -/
theorem Init_dev (d : Dev) :
    (Init d).1 = { d with width_ := (ResolveDimensions d.type_ d.orientation_).1,
                          height_ := (ResolveDimensions d.type_ d.orientation_).2 } := by
  rcases d with ⟨p, t, o, c, w, h⟩
  cases t <;> cases o <;> rfl

theorem pixels_length (hi lo k : Nat) : (pixels hi lo k).length = 2 * k := by
  induction k with
  | zero => rfl
  | succ k ih => simp [pixels, List.replicate_succ] at ih ⊢; omega

theorem pixels_succ (hi lo k : Nat) : pixels hi lo (k + 1) = pixels hi lo k ++ [hi, lo] := by
  unfold pixels
  rw [List.replicate_succ', List.flatten_append]
  rfl

theorem fillBuf_succ (hi lo : Nat) (buf : List Nat) (n : Nat) :
    fillBuf hi lo buf (n + 1) = ((fillBuf hi lo buf n).set (2 * n) hi).set (2 * n + 1) lo := by
  simp [fillBuf, List.range_succ, List.foldl_append]

theorem fillBuf_eq (hi lo : Nat) (buf : List Nat) (n : Nat) (h : 2 * n ≤ buf.length) :
    fillBuf hi lo buf n = pixels hi lo n ++ buf.drop (2 * n) := by
  induction n with
  | zero => simp [fillBuf, pixels]
  | succ n ih =>
    rw [fillBuf_succ, ih (by omega), pixels_succ]
    have hl := pixels_length hi lo n
    obtain ⟨a, b, rest, hr⟩ : ∃ a b rest, buf.drop (2 * n) = a :: b :: rest := by
      have : 2 ≤ (buf.drop (2 * n)).length := by simp; omega
      match hd : buf.drop (2 * n), this with
      | a :: b :: rest, _ => exact ⟨a, b, rest, rfl⟩
    have hr2 : buf.drop (2 * (n + 1)) = rest := by
      have : buf.drop (2 * (n + 1)) = (buf.drop (2 * n)).drop 2 := by
        rw [List.drop_drop]; rfl
      rw [this, hr]; rfl
    rw [hr, hr2]
    rw [List.set_append_right _ _ (by omega), List.set_append_right _ _ (by omega)]
    simp [hl]

theorem fillBuf_full (hi lo : Nat) :
    fillBuf hi lo (List.replicate 2048 0) (2048 / 2) = pixels hi lo 1024 := by
  rw [fillBuf_eq _ _ _ _ (by rw [List.length_replicate])]
  rw [List.drop_eq_nil_of_le (by rw [List.length_replicate]), List.append_nil]

theorem pixels_add (hi lo k m : Nat) : pixels hi lo (k + m) = pixels hi lo k ++ pixels hi lo m := by
  unfold pixels
  rw [List.replicate_add, List.flatten_append]

theorem pixels_take (hi lo n k : Nat) (h : k ≤ n) :
    (pixels hi lo n).take (k * 2) = pixels hi lo k := by
  obtain ⟨m, rfl⟩ : ∃ m, n = k + m := ⟨n - k, by omega⟩
  rw [pixels_add, List.take_left' (by rw [pixels_length]; omega)]

theorem sendChunks_zero (buf : List Nat) : sendChunks buf 0 = [] := by
  rw [sendChunks]; simp

theorem sendChunks_small (buf : List Nat) (n : Nat) (h0 : 0 < n) (h : n ≤ 1024) :
    sendChunks buf n = SendData (buf.take (n * 2)) := by
  rw [sendChunks]
  have h1 : ¬ n > 1024 := by omega
  simp [h0, h1, sendChunks_zero]

theorem sendChunks_big (buf : List Nat) (n : Nat) (h : 1024 < n) :
    sendChunks buf n = SendData (buf.take (1024 * 2)) ++ sendChunks buf (n - 1024) := by
  rw [sendChunks]
  have h0 : n > 0 := by omega
  simp [h0, h]

theorem chunkPlan_small (n : Nat) (h0 : 0 < n) (h : n ≤ 1024) : chunkPlan n = [n] := by
  unfold chunkPlan
  rcases Nat.lt_or_eq_of_le h with h | h
  · have : n / 1024 = 0 := Nat.div_eq_of_lt h
    have h2 : n % 1024 = n := Nat.mod_eq_of_lt h
    simp [this, h2]; omega
  · subst h; rfl

theorem chunkPlan_big (n : Nat) (h : 1024 < n) : chunkPlan n = 1024 :: chunkPlan (n - 1024) := by
  unfold chunkPlan
  have h1 : n / 1024 = (n - 1024) / 1024 + 1 := by omega
  have h2 : n % 1024 = (n - 1024) % 1024 := by omega
  rw [h1, h2, List.replicate_succ]
  rfl

theorem sendChunks_eq (buf : List Nat) (n : Nat) :
    sendChunks buf n = (chunkPlan n).flatMap (fun k => SendData (buf.take (k * 2))) := by
  induction n using Nat.strong_induction_on with
  | _ n ih =>
    rcases Nat.eq_zero_or_pos n with h0 | h0
    · subst h0; rw [sendChunks_zero]; rfl
    · by_cases h : n ≤ 1024
      · rw [sendChunks_small _ _ h0 h, chunkPlan_small _ h0 h]; simp
      · have h : 1024 < n := by omega
        rw [sendChunks_big _ _ h, chunkPlan_big _ h, ih (n - 1024) (by omega)]
        simp

theorem and_FF (x : Nat) : x &&& 0xFF = x % 256 :=
  Nat.and_pow_two_sub_one_eq_mod x 8

theorem shr8 (x : Nat) : x >>> 8 = x / 256 :=
  Nat.shiftRight_eq_div_pow x 8

/-- The two bytes sent for a coordinate, read big-endian, are the coordinate modulo 2^16. -/
theorem coord_bytes (X : Nat) : (X >>> 8) % 256 * 256 + (X &&& 0xFF) % 256 = X % 65536 := by
  rw [and_FF, shr8]; omega

theorem busView_WriteReg_nil (rs : Bool) (reg : Nat) (rest : List Event) :
    busView rs (WriteReg reg [] ++ rest) = (false, [reg]) :: busView true rest := by
  simp [WriteReg, busView]

theorem busView_WriteReg_one (rs : Bool) (reg b : Nat) (rest : List Event) :
    busView rs (WriteReg reg [b] ++ rest) = (false, [reg]) :: (true, [b]) :: busView true rest := by
  simp [WriteReg, busView]

theorem busView_SendData (rs : Bool) (data : List Nat) (rest : List Event) :
    busView rs (SendData data ++ rest) = (rs, data) :: busView rs rest := by
  simp [SendData, busView]

/-- The calls of `SetWindow`, with the offset of the configuration made explicit. -/
theorem SetWindow_eq (d : Dev) (x0 y0 x1 y1 : Nat)
    (hx0 : x0 < U32) (hy0 : y0 < U32) (hx1 : x1 < U32) (hy1 : y1 < U32) :
    SetWindow d x0 y0 x1 y1 =
      WriteReg CASET [] ++
      (SendData [(((x0 + (windowOffset d).1) % U32) >>> 8) % 256] ++
      (SendData [(((x0 + (windowOffset d).1) % U32) &&& 0xFF) % 256] ++
      (SendData [(((x1 + (windowOffset d).1) % U32) >>> 8) % 256] ++
      (SendData [(((x1 + (windowOffset d).1) % U32) &&& 0xFF) % 256] ++
      (WriteReg RASET [] ++
      (SendData [(((y0 + (windowOffset d).2) % U32) >>> 8) % 256] ++
      (SendData [(((y0 + (windowOffset d).2) % U32) &&& 0xFF) % 256] ++
      (SendData [(((y1 + (windowOffset d).2) % U32) >>> 8) % 256] ++
      (SendData [(((y1 + (windowOffset d).2) % U32) &&& 0xFF) % 256] ++
      WriteReg WRITE_RAM []))))))))) := by
  rcases d with ⟨p, t, o, c, w, h⟩
  cases p <;> cases t <;> cases o <;>
    simp [SetWindow, windowOffset, Orientation.toNat, Nat.mod_eq_of_lt, hx0, hy0, hx1, hy1]

/-- What the controller receives during `SetWindow`, followed by `rest`. -/
theorem busView_SetWindow (d : Dev) (x0 y0 x1 y1 : Nat) (rest : List Event) (rs : Bool)
    (hx0 : x0 < U32) (hy0 : y0 < U32) (hx1 : x1 < U32) (hy1 : y1 < U32) :
    busView rs (SetWindow d x0 y0 x1 y1 ++ rest) =
      (false, [0x2A]) ::
      (true, [(((x0 + (windowOffset d).1) % U32) >>> 8) % 256]) ::
      (true, [(((x0 + (windowOffset d).1) % U32) &&& 0xFF) % 256]) ::
      (true, [(((x1 + (windowOffset d).1) % U32) >>> 8) % 256]) ::
      (true, [(((x1 + (windowOffset d).1) % U32) &&& 0xFF) % 256]) ::
      (false, [0x2B]) ::
      (true, [(((y0 + (windowOffset d).2) % U32) >>> 8) % 256]) ::
      (true, [(((y0 + (windowOffset d).2) % U32) &&& 0xFF) % 256]) ::
      (true, [(((y1 + (windowOffset d).2) % U32) >>> 8) % 256]) ::
      (true, [(((y1 + (windowOffset d).2) % U32) &&& 0xFF) % 256]) ::
      (false, [0x2C]) :: busView true rest := by
  rw [SetWindow_eq d x0 y0 x1 y1 hx0 hy0 hx1 hy1]
  simp only [List.append_assoc, busView_WriteReg_nil, busView_SendData]
  rfl

/-- The window decoded from a trace that starts with `SetWindow`. -/
theorem sentWindow_SetWindow (d : Dev) (x0 y0 x1 y1 : Nat) (rest : List Event)
    (hx0 : x0 < U32) (hy0 : y0 < U32) (hx1 : x1 < U32) (hy1 : y1 < U32) :
    sentWindow (SetWindow d x0 y0 x1 y1 ++ rest) =
      some { x0 := ((x0 + (windowOffset d).1) % U32) % 65536,
             x1 := ((x1 + (windowOffset d).1) % U32) % 65536,
             y0 := ((y0 + (windowOffset d).2) % U32) % 65536,
             y1 := ((y1 + (windowOffset d).2) % U32) % 65536 } := by
  unfold sentWindow
  rw [busView_SetWindow d x0 y0 x1 y1 rest true hx0 hy0 hx1 hy1]
  simp only [coord_bytes]

theorem busView_chunks (rs : Bool) (l : List Nat) (g : Nat → List Nat) :
    busView rs (l.flatMap (fun k => SendData (g k))) = l.map (fun k => (rs, g k)) := by
  induction l with
  | nil => rfl
  | cons k l ih => rw [List.flatMap_cons, busView_SendData, ih]; rfl

theorem chunkPlan_le (n k : Nat) (hk : k ∈ chunkPlan n) : k ≤ 1024 := by
  unfold chunkPlan at hk
  rcases List.mem_append.1 hk with h | h
  · rw [List.eq_of_mem_replicate h]
  · split at h
    · simp at h
    · simp at h; omega

theorem chunkPlan_sum (n : Nat) : (chunkPlan n).sum = n := by
  unfold chunkPlan
  split <;> simp [List.sum_replicate] <;> omega

theorem chunkPlan_length (n : Nat) : (chunkPlan n).length = (n + 1023) / 1024 := by
  unfold chunkPlan
  split <;> simp <;> omega

theorem chunkPlan_full (n i : Nat) (hi : i + 1 < (chunkPlan n).length) :
    (chunkPlan n).getD i 0 = 1024 := by
  have hl := chunkPlan_length n
  unfold chunkPlan at hi ⊢
  have h1 : i < n / 1024 := by
    split at hi <;> simp at hi <;> omega
  rw [List.getD_append _ _ _ _ (by simpa using h1)]
  simp [List.getD_eq_getElem?_getD, h1]

theorem chunkPlan_last (n : Nat) (h : 0 < n) :
    (chunkPlan n).getLast? = some (n - 1024 * ((n + 1023) / 1024 - 1)) := by
  unfold chunkPlan
  split
  · rename_i h0
    have h1 : n / 1024 = (n / 1024 - 1) + 1 := by omega
    rw [List.append_nil, h1, List.replicate_succ', List.getLast?_append]
    simp
    omega
  · rw [List.getLast?_append]
    simp
    omega

/-- An accepted `FillRect` is `SetWindow` followed by the chunks of the plan, each a
run of the same two bytes. -/
theorem FillRect_accepted (d : Dev) (x y w h c : Nat)
    (hW : d.width_ ≤ 65535) (hH : d.height_ ≤ 65535)
    (hx : x + w ≤ d.width_) (hy : y + h ≤ d.height_) :
    FillRect d x y w h c =
      SetWindow d x y ((x + w + (U32 - 1)) % U32) ((y + h + (U32 - 1)) % U32) ++
        (chunkPlan (w * h)).flatMap
          (fun k => SendData (pixels ((c >>> 8) &&& 0xFF) (c &&& 0xFF) k)) := by
  have hwh : w * h < U32 := by
    have h1 : w ≤ 65535 := by omega
    have h2 : h ≤ 65535 := by omega
    calc w * h ≤ 65535 * 65535 := Nat.mul_le_mul h1 h2
      _ < U32 := by decide
  have hxw : (x + w) % U32 = x + w := Nat.mod_eq_of_lt (by unfold U32; omega)
  have hyh : (y + h) % U32 = y + h := Nat.mod_eq_of_lt (by unfold U32; omega)
  have hc : ¬ ((x + w) % U32 > d.width_ ∨ (y + h) % U32 > d.height_) := by
    rw [hxw, hyh]; omega
  have hhi : (c >>> 8) % 256 = (c >>> 8) &&& 0xFF := (and_FF _).symm
  have hlo : (c &&& 0xFF) % 256 = c &&& 0xFF := by rw [and_FF]; omega
  unfold FillRect
  rw [if_neg hc]
  simp only []
  rw [fillBuf_full, Nat.mod_eq_of_lt hwh, sendChunks_eq, hhi, hlo]
  congr 1
  apply List.flatMap_congr
  intro k hk
  rw [pixels_take _ _ _ _ (chunkPlan_le _ _ hk)]

theorem Init_dims_le (d0 : Dev) : (Init d0).1.width_ ≤ 160 ∧ (Init d0).1.height_ ≤ 160 := by
  rw [Init_dev]
  rcases d0 with ⟨p, t, o, c, w, h⟩
  dsimp only
  cases t <;> cases o <;> decide

theorem ramWrites_SetWindow_chunks (d : Dev) (x0 y0 x1 y1 : Nat) (l : List Nat)
    (g : Nat → List Nat)
    (hx0 : x0 < U32) (hy0 : y0 < U32) (hx1 : x1 < U32) (hy1 : y1 < U32) :
    ramWrites (SetWindow d x0 y0 x1 y1 ++ l.flatMap (fun k => SendData (g k))) = l.map g := by
  unfold ramWrites
  rw [busView_SetWindow d x0 y0 x1 y1 _ true hx0 hy0 hx1 hy1, busView_chunks]
  simp only [afterRamWrite]
  simp only [reduceCtorEq, false_and, and_false, if_false, if_true, and_self, true_and]
  have h1 : ∀ m : List Nat, (m.map (fun k => (true, g k))).takeWhile (fun p => p.1)
      = m.map (fun k => (true, g k)) := by
    intro m
    induction m with
    | nil => rfl
    | cons a m ih => simp [List.takeWhile_cons, ih]
  simp [h1]

theorem commandCodes_SetWindow_chunks (d : Dev) (x0 y0 x1 y1 : Nat) (l : List Nat)
    (g : Nat → List Nat)
    (hx0 : x0 < U32) (hy0 : y0 < U32) (hx1 : x1 < U32) (hy1 : y1 < U32) :
    commandCodes (SetWindow d x0 y0 x1 y1 ++ l.flatMap (fun k => SendData (g k)))
      = [CASET, RASET, WRITE_RAM] := by
  unfold commandCodes
  rw [busView_SetWindow d x0 y0 x1 y1 _ true hx0 hy0 hx1 hy1, busView_chunks]
  simp [List.filter_map, List.filter_cons]
  exact ⟨rfl, rfl, rfl⟩

/-- A rectangle is rejected when it leaves the display and the two sums do not wrap. -/
theorem FillRect_rejected (d : Dev) (x y w h c : Nat)
    (hxw : x + w < U32) (hyh : y + h < U32)
    (hout : x + w > d.width_ ∨ y + h > d.height_) :
    FillRect d x y w h c = [] := by
  unfold FillRect
  rw [Nat.mod_eq_of_lt hxw, Nat.mod_eq_of_lt hyh, if_pos hout]

theorem windowOffset_le (d : Dev) : (windowOffset d).1 ≤ 26 ∧ (windowOffset d).2 ≤ 26 := by
  rcases d with ⟨p, t, o, c, w, h⟩
  cases p <;> cases t <;> cases o <;> exact ⟨by simp [windowOffset], by simp [windowOffset]⟩

theorem windowOffset_Init (d0 : Dev) : windowOffset (Init d0).1 = windowOffset d0 := by
  rw [Init_dev]; rfl

/-- An accepted `FillRGBRect` is `SetWindow` followed by one data transfer. -/
theorem FillRGBRect_accepted (d : Dev) (x y : Nat) (pData : List Nat) (w h : Nat)
    (hW : d.width_ ≤ 32768) (hH : d.height_ ≤ 32768)
    (hx : x + w ≤ d.width_) (hy : y + h ≤ d.height_) :
    FillRGBRect d x y pData w h =
      SetWindow d x y ((x + w + (U32 - 1)) % U32) ((y + h + (U32 - 1)) % U32) ++
        SendData (pData.take (w * h * 2)) := by
  have hwh : w * h * 2 < U32 := by
    have h1 : w ≤ 32768 := by omega
    have h2 : h ≤ 32768 := by omega
    have : w * h ≤ 32768 * 32768 := Nat.mul_le_mul h1 h2
    unfold U32; omega
  have hxw : (x + w) % U32 = x + w := Nat.mod_eq_of_lt (by unfold U32; omega)
  have hyh : (y + h) % U32 = y + h := Nat.mod_eq_of_lt (by unfold U32; omega)
  have hc : ¬ ((x + w) % U32 > d.width_ ∨ (y + h) % U32 > d.height_) := by
    rw [hxw, hyh]; omega
  unfold FillRGBRect
  rw [if_neg hc, Nat.mod_eq_of_lt hwh]

/-- The window of a rectangle with at least one pixel that lies within a display of
at most 65535 x 65535: the rectangle shifted by the offset of the configuration. -/
theorem sentWindow_rect (d : Dev) (x y w h : Nat) (rest : List Event)
    (hW : d.width_ ≤ 65000) (hH : d.height_ ≤ 65000)
    (hw : 1 ≤ w) (hh : 1 ≤ h) (hx : x + w ≤ d.width_) (hy : y + h ≤ d.height_) :
    sentWindow (SetWindow d x y ((x + w + (U32 - 1)) % U32) ((y + h + (U32 - 1)) % U32) ++ rest)
      = some { x0 := x + (windowOffset d).1, x1 := x + w - 1 + (windowOffset d).1,
               y0 := y + (windowOffset d).2, y1 := y + h - 1 + (windowOffset d).2 } := by
  obtain ⟨h1, h2⟩ := windowOffset_le d
  have e1 : (x + w + (U32 - 1)) % U32 = x + w - 1 := by unfold U32; omega
  have e2 : (y + h + (U32 - 1)) % U32 = y + h - 1 := by unfold U32; omega
  rw [e1, e2, sentWindow_SetWindow d x y (x + w - 1) (y + h - 1) rest
    (by unfold U32; omega) (by unfold U32; omega) (by unfold U32; omega) (by unfold U32; omega)]
  have a1 : ((x + (windowOffset d).1) % U32) % 65536 = x + (windowOffset d).1 := by
    unfold U32; omega
  have a2 : ((x + w - 1 + (windowOffset d).1) % U32) % 65536 = x + w - 1 + (windowOffset d).1 := by
    unfold U32; omega
  have a3 : ((y + (windowOffset d).2) % U32) % 65536 = y + (windowOffset d).2 := by
    unfold U32; omega
  have a4 : ((y + h - 1 + (windowOffset d).2) % U32) % 65536 = y + h - 1 + (windowOffset d).2 := by
    unfold U32; omega
  rw [a1, a2, a3, a4]

theorem paintRun_length (fg bg L q : Nat) :
    ∀ (k temp : Nat) (w : List Nat) (count : Nat),
      (paintRun fg bg L q k temp w count).length = w.length := by
  intro k
  induction k with
  | zero => intro _ _ _; rfl
  | succ k ih => intro temp w count; rw [paintRun, ih, List.length_set]

theorem getD_set_ne (w : List Nat) (i j v : Nat) (h : i ≠ j) :
    (w.set i v).getD j 0 = w.getD j 0 := by
  simp [List.getD_eq_getElem?_getD, List.getElem?_set_ne h]

theorem getD_set_eq (w : List Nat) (i v : Nat) (h : i < w.length) :
    (w.set i v).getD i 0 = v := by
  simp [List.getD_eq_getElem?_getD, List.getElem?_set_self, h]

theorem paintRun_getD_other (fg bg L q i : Nat) :
    ∀ (k temp : Nat) (w : List Nat) (count : Nat),
      (∀ j, j < k → i ≠ (count + j) * L + q) →
      (paintRun fg bg L q k temp w count).getD i 0 = w.getD i 0 := by
  intro k
  induction k with
  | zero => intro _ _ _ _; rfl
  | succ k ih =>
    intro temp w count h
    rw [paintRun, ih]
    · apply getD_set_ne
      have := h 0 (by omega)
      simpa using this.symm
    · intro j hj
      have := h (j + 1) (by omega)
      rwa [show count + (j + 1) = count + 1 + j by omega] at this

theorem paintRun_getD_hit (fg bg L q : Nat) (hL : 0 < L) :
    ∀ (k temp : Nat) (w : List Nat) (count j : Nat), j < k →
      (count + j) * L + q < w.length →
      (paintRun fg bg L q k temp w count).getD ((count + j) * L + q) 0
        = glyphColor fg bg (shiftRun j temp) := by
  intro k
  induction k with
  | zero => intro _ _ _ j hj; omega
  | succ k ih =>
    intro temp w count j hj hlen
    rw [paintRun]
    cases j with
    | zero =>
      rw [paintRun_getD_other]
      · simp only [Nat.add_zero] at hlen ⊢
        rw [getD_set_eq _ _ _ hlen]; rfl
      · intro j' _
        have : count * L < (count + 1 + j') * L := Nat.mul_lt_mul_of_pos_right (by omega) hL
        simp only [Nat.add_zero]; omega
    | succ j =>
      have e : count + (j + 1) = count + 1 + j := by omega
      rw [e] at hlen ⊢
      rw [ih _ _ _ j (by omega) (by rw [List.length_set]; exact hlen)]
      rfl

theorem paintRun_succ_end (fg bg L q : Nat) :
    ∀ (k temp : Nat) (w : List Nat) (count : Nat),
      paintRun fg bg L q (k + 1) temp w count
        = (paintRun fg bg L q k temp w count).set ((count + k) * L + q)
            (glyphColor fg bg (shiftRun k temp)) := by
  intro k
  induction k with
  | zero => intro _ _ _; rfl
  | succ k ih =>
    intro temp w count
    rw [paintRun, ih, paintRun, shiftRun, show count + 1 + k = count + (k + 1) by omega]

/-- `k` rounds of the inner loop that stay clear of the bottom edge, of the end of
the column and of the row-counter reset. -/
theorem innerLoop_clean (d : Dev) (fg bg L size t y0 : Nat) (hs : size ≤ 65536) :
    ∀ (k m temp : Nat) (s : GlyphState),
      s.y + k < 65536 → s.y + k < d.height_ → y0 ≤ s.y → s.y + k < y0 + size →
      s.count + k < size →
      innerLoop d fg bg L size t y0 (k + m) temp s
        = innerLoop d fg bg L size t y0 m (shiftRun k temp)
            { write := paintRun fg bg L (t / 2) k temp s.write s.count,
              count := s.count + k, x := s.x, y := s.y + k } := by
  intro k
  induction k with
  | zero => intro m temp s _ _ _ _ _; simp [paintRun, shiftRun]
  | succ k ih =>
    intro m temp s h1 h2 h3 h4 h5
    rw [show k + 1 + m = (k + m) + 1 by omega, innerLoop]
    have hy : (s.y + 1) % 65536 = s.y + 1 := Nat.mod_eq_of_lt (by omega)
    have hc : (s.count + 1) % 65536 = s.count + 1 := Nat.mod_eq_of_lt (by omega)
    simp only [hy, hc]
    rw [if_neg (by omega : ¬ s.count + 1 ≥ size), if_neg (by omega : ¬ s.y + 1 ≥ d.height_),
      if_neg (by omega : ¬ (((s.y + 1 : Nat) : Int) - (y0 : Int) = (size : Int)))]
    rw [ih m _ _ (by simp only; omega) (by simp only; omega) (by simp only; omega)
      (by simp only; omega) (by simp only; omega)]
    simp only [paintRun, shiftRun, glyphColor]
    congr 2
    · omega
    · omega

/-- The round of the inner loop that ends a column inside the display: the cursor
goes back to row `y0` of the next column and the loop is left by `break`. -/
theorem innerLoop_break (d : Dev) (fg bg L size t y0 : Nat) (m temp : Nat) (s : GlyphState)
    (hy : s.y + 1 = y0 + size) (hy2 : y0 + size < 65536) (hH : y0 + size < d.height_)
    (hc : s.count + 1 = size) (hx : s.x + 1 < d.width_) (hx2 : s.x + 1 < 65536) :
    innerLoop d fg bg L size t y0 (m + 1) temp s
      = Flow.running
          { write := s.write.set (s.count * L + t / 2) (glyphColor fg bg temp),
            count := 0, x := s.x + 1, y := y0 } := by
  rw [innerLoop]
  have e1 : (s.y + 1) % 65536 = s.y + 1 := Nat.mod_eq_of_lt (by omega)
  have e2 : (s.count + 1) % 65536 = s.count + 1 := Nat.mod_eq_of_lt (by omega)
  have e3 : (s.x + 1) % 65536 = s.x + 1 := Nat.mod_eq_of_lt hx2
  simp only [e1, e2, e3]
  rw [if_pos (by omega : s.count + 1 ≥ size), if_neg (by omega : ¬ s.y + 1 ≥ d.height_),
    if_pos (by omega : (((s.y + 1 : Nat) : Int) - (y0 : Int) = (size : Int))),
    if_neg (by omega : ¬ s.x + 1 ≥ d.width_)]
  rfl

/-- After `j` rounds of `temp <<= 1` the tested bit is bit `7 - j` of the original
glyph byte. -/
theorem shiftRun_bit : ∀ temp, temp < 256 → ∀ j, j < 8 →
    ((shiftRun j temp &&& 0x80 ≠ 0) ↔ (temp / 2 ^ (7 - j)) % 2 = 1) := by
  decide!

/-- One column of the 16-row glyph that ends inside the display: two rounds of the
outer loop. -/
theorem innerLoop16_column (f : Font) (d : Dev) (fg bg num x0 y0 c : Nat) (w : List Nat)
    (hx : x0 + c + 1 < d.width_) (hy : y0 + 16 < d.height_)
    (hW : d.width_ ≤ 65536) (hH : d.height_ ≤ 65536) (n : Nat) :
    outerLoop f d fg bg 8 16 num y0 (n + 2) (2 * c) ⟨w, 0, x0 + c, y0⟩
      = outerLoop f d fg bg 8 16 num y0 n (2 * (c + 1))
          ⟨paintRun fg bg 8 c 8 (f.asc2_1608 num (2 * c + 1) % 256)
              (paintRun fg bg 8 c 8 (f.asc2_1608 num (2 * c) % 256) w 0) 8,
            0, x0 + (c + 1), y0⟩ := by
  have q0 : (2 * c) / 2 = c := by omega
  have q1 : (2 * c + 1) / 2 = c := by omega
  rw [outerLoop]
  simp only [show ¬ ((16 : Nat) = 12) by decide, if_false]
  have h0 := innerLoop_clean d fg bg 8 16 (2 * c) y0 (by decide) 8 0
    (f.asc2_1608 num (2 * c) % 256) ⟨w, 0, x0 + c, y0⟩
    (by simp only; omega) (by simp only; omega) (by simp only; omega) (by simp only; omega)
    (by simp only; omega)
  rw [show (8 : Nat) + 0 = 8 by rfl] at h0
  rw [h0, innerLoop]
  simp only [q0]
  rw [outerLoop]
  simp only [show ¬ ((16 : Nat) = 12) by decide, if_false]
  have h1 := innerLoop_clean d fg bg 8 16 (2 * c + 1) y0 (by decide) 7 1
    (f.asc2_1608 num (2 * c + 1) % 256)
    ⟨paintRun fg bg 8 c 8 (f.asc2_1608 num (2 * c) % 256) w 0, 0 + 8, x0 + c, y0 + 8⟩
    (by simp only; omega) (by simp only; omega) (by simp only; omega) (by simp only; omega)
    (by simp only; omega)
  rw [show (7 : Nat) + 1 = 8 by rfl] at h1
  rw [h1]
  rw [innerLoop_break d fg bg 8 16 (2 * c + 1) y0 0 _ _
    (by simp only) (by omega) (by omega) (by simp only) (by simp only; omega)
    (by simp only; omega)]
  simp only [q1]
  rw [paintRun_succ_end fg bg 8 c 7]
  rfl

/-- Painting column `c` keeps the columns before it and adds column `c`. -/
theorem painted16_step (f : Font) (fg bg num c : Nat) (w : List Nat)
    (hc : c < 8) (hl : w.length = 128) (hp : painted16 f fg bg num c w) :
    painted16 f fg bg num (c + 1)
      (paintRun fg bg 8 c 8 (f.asc2_1608 num (2 * c + 1) % 256)
        (paintRun fg bg 8 c 8 (f.asc2_1608 num (2 * c) % 256) w 0) 8) := by
  intro c' hc' r hr
  have hl1 : (paintRun fg bg 8 c 8 (f.asc2_1608 num (2 * c) % 256) w 0).length = 128 := by
    rw [paintRun_length, hl]
  by_cases hcc : c' = c
  · subst hcc
    by_cases hr8 : r < 8
    · rw [paintRun_getD_other _ _ _ _ _ _ _ _ _ (by intro j _; omega)]
      have := paintRun_getD_hit fg bg 8 c' (by decide) 8 (f.asc2_1608 num (2 * c') % 256) w 0 r
        hr8 (by omega)
      rw [Nat.zero_add] at this
      rw [this]
      unfold glyphPixel16
      rw [Nat.mod_eq_of_lt hr8, show r / 8 = 0 by omega]
      rfl
    · have := paintRun_getD_hit fg bg 8 c' (by decide) 8 (f.asc2_1608 num (2 * c' + 1) % 256)
        (paintRun fg bg 8 c' 8 (f.asc2_1608 num (2 * c') % 256) w 0) 8 (r - 8)
        (by omega) (by omega)
      rw [show 8 + (r - 8) = r by omega] at this
      rw [this]
      unfold glyphPixel16
      rw [show r % 8 = r - 8 by omega, show r / 8 = 1 by omega]
  · rw [paintRun_getD_other _ _ _ _ _ _ _ _ _ (by intro j _; omega),
      paintRun_getD_other _ _ _ _ _ _ _ _ _ (by intro j _; omega)]
    exact hp c' (by omega) r hr

/-- The loops of the 16-row path inside the display: all eight columns are painted
and no `return` is taken. -/
theorem outerLoop16_interior (f : Font) (d : Dev) (fg bg num x0 y0 : Nat)
    (hx : x0 + 8 < d.width_) (hy : y0 + 16 < d.height_)
    (hW : d.width_ ≤ 65536) (hH : d.height_ ≤ 65536) :
    ∀ (m c : Nat) (w : List Nat), c + m = 8 → w.length = 128 → painted16 f fg bg num c w →
      ∃ w', outerLoop f d fg bg 8 16 num y0 (2 * m) (2 * c) ⟨w, 0, x0 + c, y0⟩
          = Flow.running ⟨w', 0, x0 + 8, y0⟩
        ∧ w'.length = 128 ∧ painted16 f fg bg num 8 w' := by
  intro m
  induction m with
  | zero =>
    intro c w hc hl hp
    have : c = 8 := by omega
    subst this
    exact ⟨w, rfl, hl, hp⟩
  | succ m ih =>
    intro c w hc hl hp
    rw [show 2 * (m + 1) = 2 * m + 2 by omega,
      innerLoop16_column f d fg bg num x0 y0 c w (by omega) hy hW hH]
    apply ih (c + 1) _ (by omega)
    · rw [paintRun_length, paintRun_length, hl]
    · exact painted16_step f fg bg num c w (by omega) hl hp

/-- Inside the display (the cell and one more column and row fit), the 16-row path
of `ShowChar` hands `FillRGBRect` the rectangle (x, y, 8, 16) and a 128-pixel buffer
whose pixel at row r, column c (index r * 8 + c) is the swapped foreground color
when bit 7 - r % 8 of glyph byte 2 * c + r / 8 is set, the swapped background color
otherwise. -/
theorem ShowChar16_interior (f : Font) (d : Dev) (write : List Nat)
    (point_color back_color x y num : Nat) (hl : write.length = 128)
    (hx : x + 8 < d.width_) (hy : y + 16 < d.height_)
    (hW : d.width_ ≤ 65536) (hH : d.height_ ≤ 65536) :
    ∃ buf, ShowChar f d write point_color back_color x y num 16
        = (buf, FillRGBRect d x y (bytesOfWords buf) 8 16)
      ∧ buf.length = 128
      ∧ ∀ r, r < 16 → ∀ c, c < 8 →
          buf.getD (r * 8 + c) 0
            = if (f.asc2_1608 ((num + 256 - 32) % 256) (2 * c + r / 8) % 256
                    / 2 ^ (7 - r % 8)) % 2 = 1
              then swapBytes point_color else swapBytes back_color := by
  obtain ⟨w', hrun, hl', hp⟩ := outerLoop16_interior f d point_color back_color
    ((num + 256 - 32) % 256) x y hx hy hW hH 8 0 write (by omega) hl
    (by intro c' hc'; omega)
  refine ⟨w', ?_, hl', ?_⟩
  · unfold ShowChar
    simp only [show ¬ ((16 : Nat) = 12) by decide, if_false]
    rw [show (2 * 8 : Nat) = 16 by rfl, show (2 * 0 : Nat) = 0 by rfl,
      show x + 0 = x by rfl] at hrun
    rw [hrun]
  · intro r hr c hc
    rw [hp c hc r hr]
    unfold glyphPixel16 glyphColor
    have hb := shiftRun_bit (f.asc2_1608 ((num + 256 - 32) % 256) (2 * c + r / 8) % 256)
      (Nat.mod_lt _ (by decide)) (r % 8) (Nat.mod_lt _ (by decide))
    by_cases h1 : (f.asc2_1608 ((num + 256 - 32) % 256) (2 * c + r / 8) % 256
        / 2 ^ (7 - r % 8)) % 2 = 1
    · rw [if_pos h1, if_pos (hb.2 h1)]
    · rw [if_neg h1, if_neg (fun h => h1 (hb.1 h))]

/-- A round of the inner loop that moves the cursor onto or below the bottom edge
takes the `return`. -/
theorem innerLoop_return_y (d : Dev) (fg bg L size t y0 : Nat) (m temp : Nat) (s : GlyphState)
    (hy : s.y + 1 < 65536) (hH : d.height_ ≤ s.y + 1) :
    ∃ w, innerLoop d fg bg L size t y0 (m + 1) temp s = Flow.returned w := by
  rw [innerLoop]
  have e1 : (s.y + 1) % 65536 = s.y + 1 := Nat.mod_eq_of_lt hy
  simp only [e1]
  rw [if_pos (by omega : s.y + 1 ≥ d.height_)]
  exact ⟨_, rfl⟩

/-- The round of the inner loop that ends a column takes the `return` when the next
column is at or beyond the right edge. -/
theorem innerLoop_return_x (d : Dev) (fg bg L size t y0 : Nat) (m temp : Nat) (s : GlyphState)
    (hy : s.y + 1 = y0 + size) (hy2 : y0 + size < 65536) (hH : y0 + size < d.height_)
    (hx2 : s.x + 1 < 65536) (hx : d.width_ ≤ s.x + 1) :
    ∃ w, innerLoop d fg bg L size t y0 (m + 1) temp s = Flow.returned w := by
  rw [innerLoop]
  have e1 : (s.y + 1) % 65536 = s.y + 1 := Nat.mod_eq_of_lt (by omega)
  have e3 : (s.x + 1) % 65536 = s.x + 1 := Nat.mod_eq_of_lt hx2
  simp only [e1, e3]
  rw [if_neg (by omega : ¬ s.y + 1 ≥ d.height_),
    if_pos (by omega : (((s.y + 1 : Nat) : Int) - (y0 : Int) = (size : Int))),
    if_pos (by omega : s.x + 1 ≥ d.width_)]
  exact ⟨_, rfl⟩

/-- A column of the 16-row glyph whose last row touches the bottom edge, or whose
successor column is at or beyond the right edge: the loops take a `return`. -/
theorem outerLoop16_column_returns (f : Font) (d : Dev) (fg bg num x0 y0 c : Nat)
    (w : List Nat) (hy16 : y0 + 16 < 65536) (hx16 : x0 + c + 1 < 65536)
    (hy : y0 + 16 ≤ d.height_)
    (h : d.height_ = y0 + 16 ∨ d.width_ ≤ x0 + c + 1) (n : Nat) :
    ∃ w', outerLoop f d fg bg 8 16 num y0 (n + 2) (2 * c) ⟨w, 0, x0 + c, y0⟩
      = Flow.returned w' := by
  rw [outerLoop]
  simp only [show ¬ ((16 : Nat) = 12) by decide, if_false]
  have h0 := innerLoop_clean d fg bg 8 16 (2 * c) y0 (by decide) 8 0
    (f.asc2_1608 num (2 * c) % 256) ⟨w, 0, x0 + c, y0⟩
    (by simp only; omega) (by simp only; omega) (by simp only; omega) (by simp only; omega)
    (by simp only; omega)
  rw [show (8 : Nat) + 0 = 8 by rfl] at h0
  rw [h0, innerLoop]
  simp only []
  rw [outerLoop]
  simp only [show ¬ ((16 : Nat) = 12) by decide, if_false]
  have h1 := innerLoop_clean d fg bg 8 16 (2 * c + 1) y0 (by decide) 7 1
    (f.asc2_1608 num (2 * c + 1) % 256)
    ⟨paintRun fg bg 8 (2 * c / 2) 8 (f.asc2_1608 num (2 * c) % 256) w 0, 0 + 8, x0 + c, y0 + 8⟩
    (by simp only; omega) (by simp only; omega) (by simp only; omega) (by simp only; omega)
    (by simp only; omega)
  rw [show (7 : Nat) + 1 = 8 by rfl] at h1
  rw [h1]
  rcases h with h | h
  · obtain ⟨w', hw'⟩ := innerLoop_return_y d fg bg 8 16 (2 * c + 1) y0 0
      (shiftRun 7 (f.asc2_1608 num (2 * c + 1) % 256))
      ⟨paintRun fg bg 8 ((2 * c + 1) / 2) 7 (f.asc2_1608 num (2 * c + 1) % 256)
        (paintRun fg bg 8 (2 * c / 2) 8 (f.asc2_1608 num (2 * c) % 256) w 0) (0 + 8),
        0 + 8 + 7, x0 + c, y0 + 8 + 7⟩
      (by simp only; omega) (by simp only; omega)
    rw [hw']
    exact ⟨_, rfl⟩
  · by_cases hyy : d.height_ = y0 + 16
    · obtain ⟨w', hw'⟩ := innerLoop_return_y d fg bg 8 16 (2 * c + 1) y0 0
        (shiftRun 7 (f.asc2_1608 num (2 * c + 1) % 256))
        ⟨paintRun fg bg 8 ((2 * c + 1) / 2) 7 (f.asc2_1608 num (2 * c + 1) % 256)
          (paintRun fg bg 8 (2 * c / 2) 8 (f.asc2_1608 num (2 * c) % 256) w 0) (0 + 8),
          0 + 8 + 7, x0 + c, y0 + 8 + 7⟩
        (by simp only; omega) (by simp only; omega)
      rw [hw']
      exact ⟨_, rfl⟩
    · obtain ⟨w', hw'⟩ := innerLoop_return_x d fg bg 8 16 (2 * c + 1) y0 0
        (shiftRun 7 (f.asc2_1608 num (2 * c + 1) % 256))
        ⟨paintRun fg bg 8 ((2 * c + 1) / 2) 7 (f.asc2_1608 num (2 * c + 1) % 256)
          (paintRun fg bg 8 (2 * c / 2) 8 (f.asc2_1608 num (2 * c) % 256) w 0) (0 + 8),
          0 + 8 + 7, x0 + c, y0 + 8 + 7⟩
        (by simp only) (by omega) (by omega) (by simp only; omega) (by simp only; omega)
      rw [hw']
      exact ⟨_, rfl⟩

/-- The loops of the 16-row path take a `return` when the cell touches the bottom
edge or touches or crosses the right edge (and does not cross the bottom edge). -/
theorem outerLoop16_edge_returns (f : Font) (d : Dev) (fg bg num x0 y0 : Nat)
    (hy16 : y0 + 16 < 65536) (hx16 : x0 + 8 < 65536)
    (hW : d.width_ ≤ 65536) (hH : d.height_ ≤ 65536)
    (hy : y0 + 16 ≤ d.height_)
    (h : d.height_ = y0 + 16 ∨ d.width_ ≤ x0 + 8) :
    ∀ (m c : Nat) (w : List Nat), c + (m + 1) = 8 →
      ∃ w', outerLoop f d fg bg 8 16 num y0 (2 * (m + 1)) (2 * c) ⟨w, 0, x0 + c, y0⟩
        = Flow.returned w' := by
  intro m
  induction m with
  | zero =>
    intro c w hc
    exact outerLoop16_column_returns f d fg bg num x0 y0 c w hy16 (by omega) hy
      (by rcases h with h | h
          · exact Or.inl h
          · exact Or.inr (by omega)) _
  | succ m ih =>
    intro c w hc
    rw [show 2 * (m + 1 + 1) = 2 * (m + 1) + 2 by omega]
    by_cases hcol : d.height_ = y0 + 16 ∨ d.width_ ≤ x0 + c + 1
    · exact outerLoop16_column_returns f d fg bg num x0 y0 c w hy16 (by omega) hy hcol _
    · rw [innerLoop16_column f d fg bg num x0 y0 c w (by omega) (by omega) hW hH]
      exact ih (c + 1) _ (by omega)

/-- For glyph size 16 on a display of at most 65535 x 65535 and a cursor of 16 bits,
`ShowChar` makes no call when the cell touches or crosses the right or the bottom
edge: x + 8 >= width_ or y + 16 >= height_. -/
theorem ShowChar16_edge_dropped (f : Font) (d : Dev) (write : List Nat)
    (point_color back_color x y num : Nat) (hx16 : x < 65536) (hy16 : y < 65536)
    (hW : d.width_ ≤ 65535) (hH : d.height_ ≤ 65535)
    (h : d.width_ ≤ x + 8 ∨ d.height_ ≤ y + 16) :
    (ShowChar f d write point_color back_color x y num 16).2 = [] := by
  by_cases hrej : x + 8 > d.width_ ∨ y + 16 > d.height_
  · unfold ShowChar
    simp only [show ¬ ((16 : Nat) = 12) by decide, if_false]
    split
    · rfl
    · simp only [FillRGBRect]
      rw [if_pos]
      rw [Nat.mod_eq_of_lt (by unfold U32; omega), Nat.mod_eq_of_lt (by unfold U32; omega)]
      exact hrej
  · obtain ⟨w', hw'⟩ := outerLoop16_edge_returns f d point_color back_color
      ((num + 256 - 32) % 256) x y (by omega) (by omega) (by omega) (by omega) (by omega)
      (by omega) 7 0 write (by omega)
    rw [show (2 * (7 + 1) : Nat) = 16 by rfl, show (2 * 0 : Nat) = 0 by rfl,
      show x + 0 = x by rfl] at hw'
    unfold ShowChar
    simp only [show ¬ ((16 : Nat) = 12) by decide, if_false]
    rw [hw']

set_option maxHeartbeats 4000000 in
/-- The commands of `Init` with the number of data bytes each one carries, and the
data byte of the color-mode command. -/
theorem Init_frames (d : Dev) :
    (commandFrames (busView true (Init d).2)).map (fun fr => (fr.1, fr.2.length))
      = [([0x01], 0), ([0x01], 0), ([0x11], 1), ([0xB1], 3), ([0xB2], 3), ([0xB3], 6),
         ([0xB4], 1), ([0xC0], 3), ([0xC1], 1), ([0xC2], 2), ([0xC3], 2), ([0xC4], 2),
         ([0xC5], 1), ([if d.panel_ = PanelType.HANNSTAR_PANEL then 0x21 else 0x20], 0),
         ([0x3A], 1), ([0xE0], 16), ([0xE1], 16), ([0x13], 1), ([0x29], 1),
         ([0x2A], 4), ([0x2B], 4), ([0x36], 1)]
    ∧ (commandFrames (busView true (Init d).2)).filter (fun fr => fr.1 = [0x3A])
      = [([0x3A], [d.color_coding_.toNat])] := by
  rcases d with ⟨p, t, o, c, w, h⟩
  rw [Init_trace_frame]
  dsimp only
  cases p <;> cases t <;> cases o <;> cases c <;> decide!

set_option maxHeartbeats 4000000 in
/-- The command bytes of `Init`, in order. -/
theorem Init_commandCodes (d : Dev) :
    commandCodes (Init d).2
      = [0x01, 0x01, 0x11, 0xB1, 0xB2, 0xB3, 0xB4, 0xC0, 0xC1, 0xC2, 0xC3, 0xC4, 0xC5,
         (if d.panel_ = PanelType.HANNSTAR_PANEL then 0x21 else 0x20),
         0x3A, 0xE0, 0xE1, 0x13, 0x29, 0x2A, 0x2B, 0x36] := by
  rcases d with ⟨p, t, o, c, w, h⟩
  rw [Init_trace_frame]
  dsimp only
  cases p <;> cases t <;> cases o <;> cases c <;> decide!

theorem linesAfter_append (l : Bool × Bool) (a b : List Event) :
    linesAfter l (a ++ b) = linesAfter (linesAfter l a) b := by
  induction a generalizing l with
  | nil => rfl
  | cons e a ih => cases e <;> simp [linesAfter, ih]

theorem lineView_append (l : Bool × Bool) (a b : List Event) :
    lineView l (a ++ b) = lineView l a ++ lineView (linesAfter l a) b := by
  induction a generalizing l with
  | nil => rfl
  | cons e a ih => cases e <;> simp [lineView, linesAfter, ih]

/-- One framing call started with both lines high: it makes the transfers of the
contract and leaves both lines high. -/
theorem Call_run_idle (c : Call) :
    lineView (true, true) c.run = c.contract ∧ linesAfter (true, true) c.run = (true, true) := by
  cases c with
  | writeReg reg data =>
    by_cases h : data.length > 0
    · simp [Call.run, Call.contract, WriteReg, lineView, linesAfter, h]
    · simp [Call.run, Call.contract, WriteReg, lineView, linesAfter, h]
  | sendData data => simp [Call.run, Call.contract, SendData, lineView, linesAfter]

/-- A sequence of framing calls started with both lines high. -/
theorem runCalls_idle (calls : List Call) :
    lineView (true, true) (runCalls calls) = calls.flatMap Call.contract
    ∧ linesAfter (true, true) (runCalls calls) = (true, true) := by
  induction calls with
  | nil => exact ⟨rfl, rfl⟩
  | cons c calls ih =>
    obtain ⟨h1, h2⟩ := Call_run_idle c
    have e : runCalls (c :: calls) = c.run ++ runCalls calls := by
      simp [runCalls]
    rw [e, lineView_append, linesAfter_append, h1, h2, ih.1, ih.2]
    exact ⟨by simp, rfl⟩


/-- The window that `SetDisplayWindow(0, 0)` programs at bring-up equals the window
of the full-screen fill in every configuration but BOE / 0.96" / landscape. -/
theorem bring_up_window_agrees (d0 : Dev) (c : Nat)
    (h : ¬ (d0.panel_ = PanelType.BOE_PANEL ∧ d0.type_ = ScreenType.SCREEN_0_9
          ∧ (d0.orientation_ = Orientation.LANDSCAPE
              ∨ d0.orientation_ = Orientation.LANDSCAPE_ROT180))) :
    sentWindow (SetDisplayWindow (Init d0).1 0 0)
      = sentWindow (FillRect (Init d0).1 0 0 (Init d0).1.width_ (Init d0).1.height_ c) := by
  obtain ⟨hW, hH⟩ := Init_dims_le d0
  have hpos : 1 ≤ (Init d0).1.width_ ∧ 1 ≤ (Init d0).1.height_ := by
    rw [Init_dev]
    rcases d0 with ⟨p, t, o, c, w, h⟩
    dsimp only
    cases t <;> cases o <;> decide
  rw [FillRect_accepted _ _ _ _ _ _ (by omega) (by omega) (by omega) (by omega),
    sentWindow_rect _ _ _ _ _ _ (by omega) (by omega) hpos.1 hpos.2 (by omega) (by omega)]
  rw [Init_dev]
  rcases d0 with ⟨p, t, o, fmt, w, h0⟩
  dsimp only at h ⊢
  cases p <;> cases t <;> cases o <;> cases fmt <;>
    first | decide! | (exfalso; exact h (by decide))

theorem ramWrites_SetWindow_one (d : Dev) (x0 y0 x1 y1 : Nat) (p : List Nat)
    (hx0 : x0 < U32) (hy0 : y0 < U32) (hx1 : x1 < U32) (hy1 : y1 < U32) :
    ramWrites (SetWindow d x0 y0 x1 y1 ++ SendData p) = [p] := by
  have h := ramWrites_SetWindow_chunks d x0 y0 x1 y1 [0] (fun _ => p) hx0 hy0 hx1 hy1
  simpa using h

theorem commandCodes_SetWindow_one (d : Dev) (x0 y0 x1 y1 : Nat) (p : List Nat)
    (hx0 : x0 < U32) (hy0 : y0 < U32) (hx1 : x1 < U32) (hy1 : y1 < U32) :
    commandCodes (SetWindow d x0 y0 x1 y1 ++ SendData p) = [CASET, RASET, WRITE_RAM] := by
  have h := commandCodes_SetWindow_chunks d x0 y0 x1 y1 [0] (fun _ => p) hx0 hy0 hx1 hy1
  simpa using h

/-- The total number of bytes an accepted `FillRect` writes to frame memory. -/
theorem FillRect_bytes (d : Dev) (x y w h c : Nat)
    (hW : d.width_ ≤ 65535) (hH : d.height_ ≤ 65535)
    (hx : x + w ≤ d.width_) (hy : y + h ≤ d.height_) :
    (ramWrites (FillRect d x y w h c)).flatten.length = 2 * (w * h) := by
  rw [FillRect_accepted d x y w h c hW hH hx hy,
    ramWrites_SetWindow_chunks _ _ _ _ _ _ _ (by unfold U32; omega) (by unfold U32; omega)
      (Nat.mod_lt _ (by decide)) (Nat.mod_lt _ (by decide))]
  rw [List.length_flatten, List.map_map]
  have : (List.length ∘ fun k => pixels ((c >>> 8) &&& 0xFF) (c &&& 0xFF) k)
      = fun k => 2 * k := by
    funext k; simp [pixels_length]
  rw [this]
  have h2 : ∀ l : List Nat, (l.map (fun k => 2 * k)).sum = 2 * l.sum := by
    intro l; induction l with
    | nil => rfl
    | cons a l ih => simp [ih]; omega
  rw [h2, chunkPlan_sum]

/-- `stringLoop` makes exactly the calls listed by `stringCalls`. -/
theorem stringLoop_eq_drawCalls (f : Font) (d : Dev)
    (point_color back_color x0 width height size : Nat) :
    ∀ (data write : List Nat) (x y : Nat),
      stringLoop f d point_color back_color x0 width height size data write x y
        = drawCalls f d point_color back_color size
            (stringCalls x0 width height size data x y) write := by
  intro data
  induction data with
  | nil => intro write x y; rfl
  | cons c data ih =>
    intro write x y
    unfold stringLoop stringCalls
    by_cases hc : c ≤ 0x7E ∧ c ≥ 0x20
    · rw [if_pos hc, if_pos hc]
      simp only []
      generalize (if x ≥ width then (x0, (y + size) % 65536) else (x, y)) = p
      by_cases hh : p.2 ≥ height
      · rw [if_pos hh, if_pos hh]; rfl
      · rw [if_neg hh, if_neg hh, ih]; rfl
    · rw [if_neg hc, if_neg hc]; rfl

theorem ShowString_eq_drawCalls (f : Font) (d : Dev) (write : List Nat)
    (point_color back_color x y width height size : Nat) (data : List Nat) :
    ShowString f d write point_color back_color x y width height size data
      = drawCalls f d point_color back_color size
          (ShowStringCalls x y width height size data) write := by
  unfold ShowString ShowStringCalls
  exact stringLoop_eq_drawCalls _ _ _ _ _ _ _ _ _ _ _ _

/-- The calls stop at the first byte that is not printable. -/
theorem stringCalls_takeWhile (x0 width height size : Nat) :
    ∀ (data : List Nat) (x y : Nat),
      stringCalls x0 width height size data x y
        = stringCalls x0 width height size (data.takeWhile printable) x y := by
  intro data
  induction data with
  | nil => intro x y; rfl
  | cons c data ih =>
    intro x y
    by_cases hc : c ≤ 0x7E ∧ c ≥ 0x20
    · have hp : printable c = true := by simp [printable, hc]
      rw [List.takeWhile_cons, hp]
      simp only [if_true]
      unfold stringCalls
      rw [if_pos hc, if_pos hc]
      simp only []
      generalize (if x ≥ width then (x0, (y + size) % 65536) else (x, y)) = p
      by_cases hh : p.2 ≥ height
      · rw [if_pos hh, if_pos hh]
      · rw [if_neg hh, if_neg hh, ih]
    · have hp : printable c = false := by simp [printable, hc]
      rw [List.takeWhile_cons, hp]
      unfold stringCalls
      rw [if_neg hc]
      rfl

/-- The characters handed to `ShowChar` are a prefix of the printable prefix of the text. -/
theorem stringCalls_chars (x0 width height size : Nat) :
    ∀ (data : List Nat) (x y : Nat),
      (stringCalls x0 width height size data x y).map (fun call => call.2.2)
        <+: data.takeWhile printable := by
  intro data
  induction data with
  | nil => intro x y; exact List.prefix_refl _
  | cons c data ih =>
    intro x y
    by_cases hc : c ≤ 0x7E ∧ c ≥ 0x20
    · have hp : printable c = true := by simp [printable, hc]
      rw [List.takeWhile_cons, hp]
      simp only [if_true]
      unfold stringCalls
      rw [if_pos hc]
      simp only []
      generalize (if x ≥ width then (x0, (y + size) % 65536) else (x, y)) = p
      by_cases hh : p.2 ≥ height
      · rw [if_pos hh]; exact List.nil_prefix
      · rw [if_neg hh, List.map_cons]
        exact (List.prefix_cons_inj c).2 (ih _ _)
    · unfold stringCalls
      rw [if_neg hc]
      exact List.nil_prefix

theorem mem_takeWhile_printable (data : List Nat) (c : Nat)
    (h : c ∈ data.takeWhile printable) : 0x20 ≤ c ∧ c ≤ 0x7E := by
  have := List.mem_takeWhile_imp h
  simp only [printable, decide_eq_true_eq] at this
  omega

theorem innerLoop_length (d : Dev) (fg bg L size t y0 : Nat) :
    ∀ (n temp : Nat) (s : GlyphState),
      (innerLoop d fg bg L size t y0 n temp s).buf.length = s.write.length := by
  intro n
  induction n with
  | zero => intro _ s; rfl
  | succ n ih =>
    intro temp s
    unfold innerLoop
    simp only []
    split
    · simp [Flow.buf]
    · split
      · split
        · simp [Flow.buf]
        · simp [Flow.buf]
      · rw [ih]; simp

theorem outerLoop_length (f : Font) (d : Dev) (fg bg L size num y0 : Nat) :
    ∀ (n t : Nat) (s : GlyphState),
      (outerLoop f d fg bg L size num y0 n t s).buf.length = s.write.length := by
  intro n
  induction n with
  | zero => intro _ s; rfl
  | succ n ih =>
    intro t s
    unfold outerLoop
    simp only []
    have hi := innerLoop_length d fg bg L size t y0 8
      ((if size = 12 then f.asc2_1206 num t else f.asc2_1608 num t) % 256) s
    revert hi
    cases innerLoop d fg bg L size t y0 8
      ((if size = 12 then f.asc2_1206 num t else f.asc2_1608 num t) % 256) s with
    | returned w => intro hi; exact hi
    | running s1 => intro hi; rw [ih]; exact hi

/-- `ShowChar` leaves the glyph buffer with the length it had. -/
theorem ShowChar_length (f : Font) (d : Dev) (write : List Nat)
    (point_color back_color x y num size : Nat) :
    (ShowChar f d write point_color back_color x y num size).1.length = write.length := by
  have h := outerLoop_length f d point_color back_color (if size = 12 then 6 else 8) size
    ((num + 256 - 32) % 256) y size 0 ⟨write, 0, x, y⟩
  unfold ShowChar
  simp only []
  revert h
  cases outerLoop f d point_color back_color (if size = 12 then 6 else 8) size
    ((num + 256 - 32) % 256) y size 0 ⟨write, 0, x, y⟩ with
  | returned w => intro h; exact h
  | running s => intro h; exact h

theorem bytesOfWords_length (ws : List Nat) : (bytesOfWords ws).length = 2 * ws.length := by
  induction ws with
  | nil => rfl
  | cons v ws ih =>
    have e : bytesOfWords (v :: ws) = v % 256 :: (v / 256) % 256 :: bytesOfWords ws := by
      simp [bytesOfWords]
    rw [e, List.length_cons, List.length_cons, List.length_cons, ih]
    omega

/-- A `FillRGBRect` that makes any call passed its bounds check. -/
theorem FillRGBRect_ne_nil (d : Dev) (x y : Nat) (pData : List Nat) (w h : Nat)
    (hne : FillRGBRect d x y pData w h ≠ []) :
    (x + w) % U32 ≤ d.width_ ∧ (y + h) % U32 ≤ d.height_ := by
  unfold FillRGBRect at hne
  by_cases hc : (x + w) % U32 > d.width_ ∨ (y + h) % U32 > d.height_
  · rw [if_pos hc] at hne
    exact absurd rfl hne
  · omega

/-- A `ShowChar` that makes any call ran its loops to the end and handed its buffer,
still 128 pixels long, to `FillRGBRect`, which accepted the rectangle. -/
theorem ShowChar_flushed (f : Font) (d : Dev) (write : List Nat)
    (point_color back_color x y num size : Nat) (hl : write.length = 128)
    (hne : (ShowChar f d write point_color back_color x y num size).2 ≠ []) :
    ∃ buf, ShowChar f d write point_color back_color x y num size
        = (buf, FillRGBRect d x y (bytesOfWords buf) (if size = 12 then 6 else 8) size)
      ∧ buf.length = 128
      ∧ (x + (if size = 12 then 6 else 8)) % U32 ≤ d.width_ ∧ (y + size) % U32 ≤ d.height_ := by
  have h := outerLoop_length f d point_color back_color (if size = 12 then 6 else 8) size
    ((num + 256 - 32) % 256) y size 0 ⟨write, 0, x, y⟩
  unfold ShowChar at hne ⊢
  simp only [] at hne ⊢
  revert h hne
  cases outerLoop f d point_color back_color (if size = 12 then 6 else 8) size
    ((num + 256 - 32) % 256) y size 0 ⟨write, 0, x, y⟩ with
  | returned w => intro hne _; exact absurd rfl hne
  | running s =>
    intro hne h
    simp only [] at hne
    exact ⟨s.write, rfl, by rw [← hl]; exact h, FillRGBRect_ne_nil _ _ _ _ _ _ hne⟩

/-- The recording loop takes the path of `innerLoop`. -/
theorem innerLoopLog_fst (d : Dev) (fg bg L size t y0 : Nat) :
    ∀ (n temp : Nat) (s : GlyphState),
      (innerLoopLog d fg bg L size t y0 n temp s).1 = innerLoop d fg bg L size t y0 n temp s := by
  intro n
  induction n with
  | zero => intro _ _; rfl
  | succ n ih =>
    intro temp s
    unfold innerLoopLog innerLoop
    simp only []
    split
    · rfl
    · split
      · split
        · rfl
        · rfl
      · exact ih _ _

/-- The recording loop takes the path of `outerLoop`. -/
theorem outerLoopLog_fst (f : Font) (d : Dev) (fg bg L size num y0 : Nat) :
    ∀ (n t : Nat) (s : GlyphState),
      (outerLoopLog f d fg bg L size num y0 n t s).1
        = outerLoop f d fg bg L size num y0 n t s := by
  intro n
  induction n with
  | zero => intro _ _; rfl
  | succ n ih =>
    intro t s
    unfold outerLoopLog outerLoop
    simp only []
    rw [innerLoopLog_fst]
    cases innerLoop d fg bg L size t y0 8
      ((if size = 12 then f.asc2_1206 num t else f.asc2_1608 num t) % 256) s with
    | returned w => rfl
    | running s1 => exact ih _ _

theorem Init_dims_pos (d0 : Dev) : 80 ≤ (Init d0).1.width_ ∧ 80 ≤ (Init d0).1.height_ := by
  rw [Init_dev]
  rcases d0 with ⟨p, t, o, c, w, h⟩
  dsimp only
  cases t <;> cases o <;> decide

/-! ## Claims about the driver -/

/-- C1 (failing input): on the default configuration (Hannstar, 0.96", landscape,
160 x 80) the request x = 4294967295, y = 0, width = 1, height = 1 has
x + width > 160, yet `FillRect` is not a no-op: `Xpos + Width` wraps to 0 in
`uint32_t`, the bounds check passes, a window is programmed and one pixel is sent. -/
theorem C1_wrapped_sum_is_drawn :
    4294967295 + 1 > (Init ⟨.HANNSTAR_PANEL, .SCREEN_0_9, .LANDSCAPE, .FORMAT_RGB565, 0, 0⟩).1.width_
    ∧ FillRect (Init ⟨.HANNSTAR_PANEL, .SCREEN_0_9, .LANDSCAPE, .FORMAT_RGB565, 0, 0⟩).1
        4294967295 0 1 1 0x001F
      = SetWindow (Init ⟨.HANNSTAR_PANEL, .SCREEN_0_9, .LANDSCAPE, .FORMAT_RGB565, 0, 0⟩).1
          4294967295 0 4294967295 0 ++ SendData [0x00, 0x1F]
    ∧ FillRect (Init ⟨.HANNSTAR_PANEL, .SCREEN_0_9, .LANDSCAPE, .FORMAT_RGB565, 0, 0⟩).1
        4294967295 0 1 1 0x001F ≠ []
    ∧ sentWindow (FillRect (Init ⟨.HANNSTAR_PANEL, .SCREEN_0_9, .LANDSCAPE, .FORMAT_RGB565, 0, 0⟩).1
        4294967295 0 1 1 0x001F) = some { x0 := 0, x1 := 0, y0 := 26, y1 := 26 } := by
  have hd : (Init ⟨.HANNSTAR_PANEL, .SCREEN_0_9, .LANDSCAPE, .FORMAT_RGB565, 0, 0⟩).1
      = ⟨.HANNSTAR_PANEL, .SCREEN_0_9, .LANDSCAPE, .FORMAT_RGB565, 160, 80⟩ := rfl
  have key : FillRect ⟨.HANNSTAR_PANEL, .SCREEN_0_9, .LANDSCAPE, .FORMAT_RGB565, 160, 80⟩
        4294967295 0 1 1 0x001F
      = SetWindow ⟨.HANNSTAR_PANEL, .SCREEN_0_9, .LANDSCAPE, .FORMAT_RGB565, 160, 80⟩
          4294967295 0 4294967295 0 ++ SendData [0x00, 0x1F] := by
    unfold FillRect
    rw [if_neg (by decide)]
    simp only []
    rw [fillBuf_full, sendChunks_small _ _ (by decide) (by decide), pixels_take _ _ _ _ (by decide)]
    rfl
  rw [hd, key]
  refine ⟨by decide, rfl, ?_, ?_⟩
  · simp [SetWindow, WriteReg]
  · rw [sentWindow_SetWindow _ _ _ _ _ _ (by decide) (by decide) (by decide) (by decide)]
    rfl

/-- C2: for every panel variant, screen variant and rotation, after bring-up the
full-screen `FillRect(0, 0, width_, height_, color)` is not rejected: its trace is
`SetWindow` for the whole screen followed by data transfers only, the commands it
issues are column address, row address and write-to-frame-memory in this order, and
the payloads written to frame memory total `width_ * height_` pixels of two bytes. -/
theorem C2_full_screen_fill (d0 : Dev) (color : Nat) :
    FillRect (Init d0).1 0 0 (Init d0).1.width_ (Init d0).1.height_ color ≠ []
    ∧ (∃ stream, FillRect (Init d0).1 0 0 (Init d0).1.width_ (Init d0).1.height_ color
        = SetWindow (Init d0).1 0 0 ((Init d0).1.width_ - 1) ((Init d0).1.height_ - 1) ++ stream)
    ∧ commandCodes (FillRect (Init d0).1 0 0 (Init d0).1.width_ (Init d0).1.height_ color)
        = [CASET, RASET, WRITE_RAM]
    ∧ (ramWrites (FillRect (Init d0).1 0 0 (Init d0).1.width_ (Init d0).1.height_
        color)).flatten.length = 2 * ((Init d0).1.width_ * (Init d0).1.height_)
    ∧ 0 < (Init d0).1.width_ * (Init d0).1.height_ := by
  obtain ⟨hW, hH⟩ := Init_dims_le d0
  have hpos : 0 < (Init d0).1.width_ ∧ 0 < (Init d0).1.height_ := by
    rw [Init_dev]
    rcases d0 with ⟨p, t, o, c, w, h⟩
    dsimp only
    cases t <;> cases o <;> decide
  have hx1 : (0 + (Init d0).1.width_ + (U32 - 1)) % U32 = (Init d0).1.width_ - 1 := by
    unfold U32; omega
  have hy1 : (0 + (Init d0).1.height_ + (U32 - 1)) % U32 = (Init d0).1.height_ - 1 := by
    unfold U32; omega
  have hb1 : (Init d0).1.width_ - 1 < U32 := by unfold U32; omega
  have hb2 : (Init d0).1.height_ - 1 < U32 := by unfold U32; omega
  have key := FillRect_accepted (Init d0).1 0 0 (Init d0).1.width_ (Init d0).1.height_ color
    (by omega) (by omega) (by omega) (by omega)
  rw [hx1, hy1] at key
  rw [key]
  refine ⟨?_, ⟨_, rfl⟩, ?_, ?_, Nat.mul_pos hpos.1 hpos.2⟩
  · simp [SetWindow, WriteReg]
  · exact commandCodes_SetWindow_chunks _ _ _ _ _ _ _ (by decide) (by decide) hb1 hb2
  · rw [ramWrites_SetWindow_chunks _ _ _ _ _ _ _ (by decide) (by decide) hb1 hb2]
    rw [List.length_flatten, List.map_map]
    have : (List.length ∘ fun k => pixels ((color >>> 8) &&& 0xFF) (color &&& 0xFF) k)
        = fun k => 2 * k := by
      funext k; simp [pixels_length]
    rw [this]
    have h2 : ∀ l : List Nat, (l.map (fun k => 2 * k)).sum = 2 * l.sum := by
      intro l; induction l with
      | nil => rfl
      | cons a l ih => simp [ih]; omega
    rw [h2, chunkPlan_sum]

/-- C3: for every rectangle accepted after bring-up, with n = width * height,
`FillRect` issues after `SetWindow` exactly the data transfers of the chunk plan of
n: there are ceil(n / 1024) of them, each before the last carries 1024 pixels
(2048 bytes), the last carries n - 1024 * (ceil(n / 1024) - 1) pixels, and they
total n pixels; 3000 pixels go out as 1024, 1024 and 952. -/
theorem C3_chunked_transfers (d0 : Dev) (x y w h c : Nat)
    (hx : x + w ≤ (Init d0).1.width_) (hy : y + h ≤ (Init d0).1.height_) :
    FillRect (Init d0).1 x y w h c
      = SetWindow (Init d0).1 x y ((x + w + (U32 - 1)) % U32) ((y + h + (U32 - 1)) % U32) ++
          (chunkPlan (w * h)).flatMap
            (fun k => SendData (pixels ((c >>> 8) &&& 0xFF) (c &&& 0xFF) k))
    ∧ ramWrites (FillRect (Init d0).1 x y w h c)
        = (chunkPlan (w * h)).map (fun k => pixels ((c >>> 8) &&& 0xFF) (c &&& 0xFF) k)
    ∧ (∀ k, (pixels ((c >>> 8) &&& 0xFF) (c &&& 0xFF) k).length = 2 * k)
    ∧ (chunkPlan (w * h)).length = (w * h + 1023) / 1024
    ∧ (∀ i, i + 1 < (chunkPlan (w * h)).length → (chunkPlan (w * h)).getD i 0 = 1024)
    ∧ (0 < w * h → (chunkPlan (w * h)).getLast?
          = some (w * h - 1024 * ((w * h + 1023) / 1024 - 1)))
    ∧ (chunkPlan (w * h)).sum = w * h
    ∧ chunkPlan 3000 = [1024, 1024, 952] := by
  obtain ⟨hW, hH⟩ := Init_dims_le d0
  have key := FillRect_accepted (Init d0).1 x y w h c (by omega) (by omega) hx hy
  refine ⟨key, ?_, fun k => pixels_length _ _ k, chunkPlan_length _,
    fun i hi => chunkPlan_full _ i hi, fun h0 => chunkPlan_last _ h0, chunkPlan_sum _, by decide⟩
  rw [key]
  apply ramWrites_SetWindow_chunks
  · unfold U32; omega
  · unfold U32; omega
  · exact Nat.mod_lt _ (by decide)
  · exact Nat.mod_lt _ (by decide)

/-- Witness for C3: a 50 x 60 rectangle (3000 pixels) on the 128 x 160 portrait
screen is written as three payloads of 2048, 2048 and 1904 bytes. -/
theorem C3_chunked_transfers_witness :
    (ramWrites (FillRect (Init ⟨.HANNSTAR_PANEL, .SCREEN_1_8, .PORTRAIT, .FORMAT_RGB565, 0, 0⟩).1
        0 0 50 60 0x001F)).map List.length = [2048, 2048, 1904] := by
  have h := (C3_chunked_transfers ⟨.HANNSTAR_PANEL, .SCREEN_1_8, .PORTRAIT, .FORMAT_RGB565, 0, 0⟩
    0 0 50 60 0x001F (by decide) (by decide))
  rw [h.2.1, List.map_map]
  have h3 : chunkPlan (50 * 60) = [1024, 1024, 952] := by decide
  rw [h3]
  simp [pixels_length]

/-- C4: for every rectangle accepted after bring-up and every color argument, each
payload `FillRect` writes to frame memory is a whole number of repetitions of the
two bytes (color >> 8) & 0xFF, color & 0xFF, in this order; so is the content of
every transfer that follows `SetWindow`. -/
theorem C4_big_endian_pixels (d0 : Dev) (x y w h c : Nat)
    (hx : x + w ≤ (Init d0).1.width_) (hy : y + h ≤ (Init d0).1.height_) :
    (∀ p ∈ ramWrites (FillRect (Init d0).1 x y w h c),
        ∃ k, p = (List.replicate k [(c >>> 8) &&& 0xFF, c &&& 0xFF]).flatten)
    ∧ (∃ stream, FillRect (Init d0).1 x y w h c
          = SetWindow (Init d0).1 x y ((x + w + (U32 - 1)) % U32) ((y + h + (U32 - 1)) % U32)
              ++ stream
        ∧ ∀ bytes, Event.spi bytes ∈ stream →
            ∃ k, bytes = (List.replicate k [(c >>> 8) &&& 0xFF, c &&& 0xFF]).flatten) := by
  obtain ⟨hW, hH⟩ := Init_dims_le d0
  have key := FillRect_accepted (Init d0).1 x y w h c (by omega) (by omega) hx hy
  constructor
  · intro p hp
    rw [key, ramWrites_SetWindow_chunks _ _ _ _ _ _ _ (by unfold U32; omega) (by unfold U32; omega)
      (Nat.mod_lt _ (by decide)) (Nat.mod_lt _ (by decide))] at hp
    obtain ⟨k, _, hk⟩ := List.mem_map.1 hp
    exact ⟨k, hk.symm⟩
  · refine ⟨_, key, ?_⟩
    intro bytes hb
    obtain ⟨k, _, hk⟩ := List.mem_flatMap.1 hb
    simp [SendData] at hk
    exact ⟨k, hk⟩

/-- Witness for C4 on the default configuration: a 100 x 30 rectangle at (10, 20). -/
theorem C4_big_endian_pixels_witness :
    (10 + 100 ≤ (Init ⟨.HANNSTAR_PANEL, .SCREEN_0_9, .LANDSCAPE, .FORMAT_RGB565, 0, 0⟩).1.width_
      ∧ 20 + 30 ≤ (Init ⟨.HANNSTAR_PANEL, .SCREEN_0_9, .LANDSCAPE, .FORMAT_RGB565, 0, 0⟩).1.height_)
    ∧ (∀ p ∈ ramWrites (FillRect
          (Init ⟨.HANNSTAR_PANEL, .SCREEN_0_9, .LANDSCAPE, .FORMAT_RGB565, 0, 0⟩).1
          10 20 100 30 0xF81F),
        ∃ k, p = (List.replicate k [(0xF81F >>> 8) &&& 0xFF, 0xF81F &&& 0xFF]).flatten) :=
  ⟨⟨by decide, by decide⟩,
   (C4_big_endian_pixels ⟨.HANNSTAR_PANEL, .SCREEN_0_9, .LANDSCAPE, .FORMAT_RGB565, 0, 0⟩
      10 20 100 30 0xF81F (by decide) (by decide)).1⟩

/-- C5: for every screen variant and rotation, the width and height that bring-up
(`SetOrientation`) sets are the native pair, (80, 160) for SCREEN_0_9 and (128, 160)
for SCREEN_1_8 and SCREEN_1_8A, in the two portrait rotations and the swapped pair
in the two landscape rotations; the three instances the spec lists are included. -/
theorem C5_resolve_dimensions (d : Dev) :
    ((SetOrientation d).1.width_, (SetOrientation d).1.height_)
        = ResolveDimensions d.type_ d.orientation_
    ∧ ((Init d).1.width_, (Init d).1.height_) = ResolveDimensions d.type_ d.orientation_
    ∧ ResolveDimensions d.type_ d.orientation_
        = (if d.orientation_ = Orientation.LANDSCAPE ∨ d.orientation_ = Orientation.LANDSCAPE_ROT180
           then (if d.type_ = ScreenType.SCREEN_0_9 then (160, 80) else (160, 128))
           else (if d.type_ = ScreenType.SCREEN_0_9 then (80, 160) else (128, 160)))
    ∧ ResolveDimensions ScreenType.SCREEN_0_9 Orientation.LANDSCAPE = (160, 80)
    ∧ ResolveDimensions ScreenType.SCREEN_0_9 Orientation.PORTRAIT = (80, 160)
    ∧ ResolveDimensions ScreenType.SCREEN_1_8 Orientation.LANDSCAPE = (160, 128) := by
  rcases d with ⟨p, t, o, c, w, h⟩
  refine ⟨?_, ?_, ?_, rfl, rfl, rfl⟩
  · cases t <;> cases o <;> rfl
  · cases t <;> cases o <;> rfl
  · cases t <;> cases o <;> rfl

set_option maxHeartbeats 4000000 in
/-- C6: the rotation table has column 0 = 0x40, 0x80, 0x20, 0xE0 and column 1 =
0xC0, 0x00, 0x60, 0xA0; the last call of bring-up is the MADCTL command (0x36) with
one data byte, the column-1 entry of the rotation ORed with the panel's
subpixel-order bit (0xC8, 0x08, 0x68, 0xA8 for Hannstar, 0xC0, 0x00, 0x60, 0xA0 for
BOE), and no other MADCTL command is issued. -/
theorem C6_madctl_value (d : Dev) :
    OrientationTab.map (fun row => row.getD 0 0) = [0x40, 0x80, 0x20, 0xE0]
    ∧ OrientationTab.map (fun row => row.getD 1 0) = [0xC0, 0x00, 0x60, 0xA0]
    ∧ (∃ pre, (Init d).2 = pre ++ WriteReg MADCTL [ResolveMadctlValue d.panel_ d.orientation_ 1]
          ∧ MADCTL ∉ commandCodes pre)
    ∧ (commandCodes (Init d).2).count MADCTL = 1
    ∧ ResolveMadctlValue d.panel_ d.orientation_ 1
        = (match d.panel_, d.orientation_ with
           | .HANNSTAR_PANEL, .PORTRAIT => 0xC8
           | .HANNSTAR_PANEL, .PORTRAIT_ROT180 => 0x08
           | .HANNSTAR_PANEL, .LANDSCAPE => 0x68
           | .HANNSTAR_PANEL, .LANDSCAPE_ROT180 => 0xA8
           | .BOE_PANEL, .PORTRAIT => 0xC0
           | .BOE_PANEL, .PORTRAIT_ROT180 => 0x00
           | .BOE_PANEL, .LANDSCAPE => 0x60
           | .BOE_PANEL, .LANDSCAPE_ROT180 => 0xA0) := by
  rcases d with ⟨p, t, o, c, w, h⟩
  dsimp only
  refine ⟨by decide, by decide, ?_, ?_, ?_⟩
  · rw [Init_trace_frame]
    refine ⟨((Init ⟨p, t, o, c, 0, 0⟩).2).take (((Init ⟨p, t, o, c, 0, 0⟩).2).length - 6), ?_, ?_⟩
    · cases p <;> cases t <;> cases o <;> cases c <;> decide!
    · cases p <;> cases t <;> cases o <;> cases c <;> decide!
  · rw [Init_trace_frame]
    cases p <;> cases t <;> cases o <;> cases c <;> decide!
  · cases p <;> cases o <;> decide

/-- C7 (counterexample): on the Hannstar 0.96" panel in portrait (80 x 160) the
accepted full-screen fill programs the window (26, 1)-(105, 160): x1 = 105 is not
below the width 80 and y1 = 160 is not below the height 160. -/
theorem C7_offset_window_leaves_dimensions :
    FillRect (Init ⟨.HANNSTAR_PANEL, .SCREEN_0_9, .PORTRAIT, .FORMAT_RGB565, 0, 0⟩).1
        0 0 80 160 0x001F ≠ []
    ∧ sentWindow (FillRect (Init ⟨.HANNSTAR_PANEL, .SCREEN_0_9, .PORTRAIT, .FORMAT_RGB565, 0, 0⟩).1
        0 0 80 160 0x001F) = some { x0 := 26, x1 := 105, y0 := 1, y1 := 160 }
    ∧ ¬ windowWithin
        (Init ⟨.HANNSTAR_PANEL, .SCREEN_0_9, .PORTRAIT, .FORMAT_RGB565, 0, 0⟩).1.width_
        (Init ⟨.HANNSTAR_PANEL, .SCREEN_0_9, .PORTRAIT, .FORMAT_RGB565, 0, 0⟩).1.height_
        (FillRect (Init ⟨.HANNSTAR_PANEL, .SCREEN_0_9, .PORTRAIT, .FORMAT_RGB565, 0, 0⟩).1
          0 0 80 160 0x001F) := by
  have hd : (Init ⟨.HANNSTAR_PANEL, .SCREEN_0_9, .PORTRAIT, .FORMAT_RGB565, 0, 0⟩).1
      = ⟨.HANNSTAR_PANEL, .SCREEN_0_9, .PORTRAIT, .FORMAT_RGB565, 80, 160⟩ := rfl
  rw [hd]
  have key := FillRect_accepted ⟨.HANNSTAR_PANEL, .SCREEN_0_9, .PORTRAIT, .FORMAT_RGB565, 80, 160⟩
    0 0 80 160 0x001F (by decide) (by decide) (by decide) (by decide)
  have hwin := sentWindow_rect ⟨.HANNSTAR_PANEL, .SCREEN_0_9, .PORTRAIT, .FORMAT_RGB565, 80, 160⟩
    0 0 80 160 ((chunkPlan (80 * 160)).flatMap
      (fun k => SendData (pixels ((0x001F >>> 8) &&& 0xFF) (0x001F &&& 0xFF) k)))
    (by decide) (by decide) (by decide) (by decide) (by decide) (by decide)
  rw [← key] at hwin
  refine ⟨?_, hwin, ?_⟩
  · rw [key]; simp [SetWindow, WriteReg]
  · rintro ⟨win, hw, _, hx1, _, _⟩
    rw [hwin] at hw
    cases hw
    revert hx1
    decide

/-- C7 (amended): for every configuration after bring-up and every `FillRect` or
`FillRGBRect` request with width and height at least 1 that lies within the display,
the window sent is the requested rectangle shifted by the offset (dx, dy) of the
configuration; the rectangle itself satisfies the bounds of the claim, so the
window satisfies dx <= x0 <= x1 < width_ + dx and dy <= y0 <= y1 < height_ + dy.
The window of such a request satisfies the bounds of the claim exactly when
x + w + dx <= width_ and y + h + dy <= height_: it does for every such request when
the offset is (0, 0), and when the offset is not (0, 0) the accepted full-screen
request (0, 0, width_, height_) sends a window with x1 >= width_ or y1 >= height_. -/
theorem C7_window_is_shifted_rectangle (d0 : Dev) (x y w h c : Nat) (pData : List Nat)
    (hw : 1 ≤ w) (hh : 1 ≤ h)
    (hx : x + w ≤ (Init d0).1.width_) (hy : y + h ≤ (Init d0).1.height_) :
    ∃ win, sentWindow (FillRect (Init d0).1 x y w h c) = some win
      ∧ sentWindow (FillRGBRect (Init d0).1 x y pData w h) = some win
      ∧ win.x0 = x + (windowOffset d0).1 ∧ win.x1 = x + w - 1 + (windowOffset d0).1
      ∧ win.y0 = y + (windowOffset d0).2 ∧ win.y1 = y + h - 1 + (windowOffset d0).2
      ∧ (x ≤ x + w - 1 ∧ x + w - 1 < (Init d0).1.width_
          ∧ y ≤ y + h - 1 ∧ y + h - 1 < (Init d0).1.height_)
      ∧ ((windowOffset d0).1 ≤ win.x0 ∧ win.x0 ≤ win.x1
          ∧ win.x1 < (Init d0).1.width_ + (windowOffset d0).1)
      ∧ ((windowOffset d0).2 ≤ win.y0 ∧ win.y0 ≤ win.y1
          ∧ win.y1 < (Init d0).1.height_ + (windowOffset d0).2)
      ∧ ((win.x0 ≤ win.x1 ∧ win.x1 < (Init d0).1.width_
            ∧ win.y0 ≤ win.y1 ∧ win.y1 < (Init d0).1.height_)
          ↔ (x + w + (windowOffset d0).1 ≤ (Init d0).1.width_
              ∧ y + h + (windowOffset d0).2 ≤ (Init d0).1.height_))
      ∧ (windowOffset d0 = (0, 0) →
          windowWithin (Init d0).1.width_ (Init d0).1.height_ (FillRect (Init d0).1 x y w h c)
          ∧ windowWithin (Init d0).1.width_ (Init d0).1.height_
              (FillRGBRect (Init d0).1 x y pData w h))
      ∧ (windowOffset d0 ≠ (0, 0) →
          ∃ full,
            sentWindow (FillRect (Init d0).1 0 0 (Init d0).1.width_ (Init d0).1.height_ c)
              = some full
            ∧ sentWindow (FillRGBRect (Init d0).1 0 0 pData
                (Init d0).1.width_ (Init d0).1.height_) = some full
            ∧ full.x0 = (windowOffset d0).1
            ∧ full.x1 = (Init d0).1.width_ - 1 + (windowOffset d0).1
            ∧ full.y0 = (windowOffset d0).2
            ∧ full.y1 = (Init d0).1.height_ - 1 + (windowOffset d0).2
            ∧ ((Init d0).1.width_ ≤ full.x1 ∨ (Init d0).1.height_ ≤ full.y1)
            ∧ ¬ windowWithin (Init d0).1.width_ (Init d0).1.height_
                (FillRect (Init d0).1 0 0 (Init d0).1.width_ (Init d0).1.height_ c)
            ∧ ¬ windowWithin (Init d0).1.width_ (Init d0).1.height_
                (FillRGBRect (Init d0).1 0 0 pData (Init d0).1.width_ (Init d0).1.height_)) := by
  obtain ⟨hW, hH⟩ := Init_dims_le d0
  obtain ⟨hW1, hH1⟩ := Init_dims_pos d0
  have k1 := FillRect_accepted (Init d0).1 x y w h c (by omega) (by omega) hx hy
  have k2 := FillRGBRect_accepted (Init d0).1 x y pData w h (by omega) (by omega) hx hy
  have s1 : sentWindow (FillRect (Init d0).1 x y w h c)
      = some { x0 := x + (windowOffset d0).1, x1 := x + w - 1 + (windowOffset d0).1,
               y0 := y + (windowOffset d0).2, y1 := y + h - 1 + (windowOffset d0).2 } := by
    rw [k1, sentWindow_rect _ _ _ _ _ _ (by omega) (by omega) hw hh hx hy, windowOffset_Init]
  have s2 : sentWindow (FillRGBRect (Init d0).1 x y pData w h)
      = some { x0 := x + (windowOffset d0).1, x1 := x + w - 1 + (windowOffset d0).1,
               y0 := y + (windowOffset d0).2, y1 := y + h - 1 + (windowOffset d0).2 } := by
    rw [k2, sentWindow_rect _ _ _ _ _ _ (by omega) (by omega) hw hh hx hy, windowOffset_Init]
  refine ⟨{ x0 := x + (windowOffset d0).1, x1 := x + w - 1 + (windowOffset d0).1,
            y0 := y + (windowOffset d0).2, y1 := y + h - 1 + (windowOffset d0).2 },
          s1, s2, rfl, rfl, rfl, rfl, ?_, ?_, ?_, ?_, ?_, ?_⟩
  · omega
  · dsimp only; omega
  · dsimp only; omega
  · dsimp only
    constructor
    · intro hb; omega
    · intro hb; omega
  · intro h0
    have e1 : (windowOffset d0).1 = 0 := by rw [h0]
    have e2 : (windowOffset d0).2 = 0 := by rw [h0]
    exact ⟨⟨_, s1, by dsimp only; omega, by dsimp only; omega, by dsimp only; omega,
              by dsimp only; omega⟩,
           ⟨_, s2, by dsimp only; omega, by dsimp only; omega, by dsimp only; omega,
              by dsimp only; omega⟩⟩
  · intro hne
    have hoff : (windowOffset d0).1 ≠ 0 ∨ (windowOffset d0).2 ≠ 0 := by
      by_contra hcon
      apply hne
      have a1 : (windowOffset d0).1 = 0 := by omega
      have a2 : (windowOffset d0).2 = 0 := by omega
      exact Prod.ext a1 a2
    have f1 := FillRect_accepted (Init d0).1 0 0 (Init d0).1.width_ (Init d0).1.height_ c
      (by omega) (by omega) (by omega) (by omega)
    have f2 := FillRGBRect_accepted (Init d0).1 0 0 pData (Init d0).1.width_ (Init d0).1.height_
      (by omega) (by omega) (by omega) (by omega)
    have t1 : sentWindow (FillRect (Init d0).1 0 0 (Init d0).1.width_ (Init d0).1.height_ c)
        = some { x0 := 0 + (windowOffset d0).1,
                 x1 := 0 + (Init d0).1.width_ - 1 + (windowOffset d0).1,
                 y0 := 0 + (windowOffset d0).2,
                 y1 := 0 + (Init d0).1.height_ - 1 + (windowOffset d0).2 } := by
      rw [f1, sentWindow_rect _ _ _ _ _ _ (by omega) (by omega) (by omega) (by omega)
        (by omega) (by omega), windowOffset_Init]
    have t2 : sentWindow (FillRGBRect (Init d0).1 0 0 pData
          (Init d0).1.width_ (Init d0).1.height_)
        = some { x0 := 0 + (windowOffset d0).1,
                 x1 := 0 + (Init d0).1.width_ - 1 + (windowOffset d0).1,
                 y0 := 0 + (windowOffset d0).2,
                 y1 := 0 + (Init d0).1.height_ - 1 + (windowOffset d0).2 } := by
      rw [f2, sentWindow_rect _ _ _ _ _ _ (by omega) (by omega) (by omega) (by omega)
        (by omega) (by omega), windowOffset_Init]
    refine ⟨_, t1, t2, by dsimp only; omega, by dsimp only; omega, by dsimp only; omega,
      by dsimp only; omega, by dsimp only; omega, ?_, ?_⟩
    · rintro ⟨win, hwin, _, hx1, _, hy1⟩
      rw [t1] at hwin
      cases hwin
      dsimp only at hx1 hy1
      omega
    · rintro ⟨win, hwin, _, hx1, _, hy1⟩
      rw [t2] at hwin
      cases hwin
      dsimp only at hx1 hy1
      omega

/-- Witness for C7 (amended): the accepted full-screen fill of the counterexample. -/
theorem C7_window_is_shifted_rectangle_witness :
    (1 ≤ 80 ∧ 1 ≤ 160
      ∧ 0 + 80 ≤ (Init ⟨.HANNSTAR_PANEL, .SCREEN_0_9, .PORTRAIT, .FORMAT_RGB565, 0, 0⟩).1.width_
      ∧ 0 + 160 ≤ (Init ⟨.HANNSTAR_PANEL, .SCREEN_0_9, .PORTRAIT, .FORMAT_RGB565, 0, 0⟩).1.height_)
    ∧ ∃ win, sentWindow (FillRect
          (Init ⟨.HANNSTAR_PANEL, .SCREEN_0_9, .PORTRAIT, .FORMAT_RGB565, 0, 0⟩).1
          0 0 80 160 0x001F) = some win
        ∧ win.x0 = 26 ∧ win.x1 = 105 ∧ win.y0 = 1 ∧ win.y1 = 160 := by
  refine ⟨⟨by decide, by decide, by decide, by decide⟩, ?_⟩
  obtain ⟨win, h1, _, h3, h4, h5, h6, _⟩ :=
    C7_window_is_shifted_rectangle ⟨.HANNSTAR_PANEL, .SCREEN_0_9, .PORTRAIT, .FORMAT_RGB565, 0, 0⟩
      0 0 80 160 0x001F [] (by decide) (by decide) (by decide) (by decide)
  exact ⟨win, h1, h3, h4, h5, h6⟩

/-- C8: for glyph size 16, every font, character, pair of colors and cursor (x, y)
(y a `uint16_t`) with y + 16 > height_, `ShowChar` makes no call at all: either a
`return` inside its loops is taken or `FillRGBRect` rejects the rectangle. -/
theorem C8_glyph_past_bottom_draws_nothing (f : Font) (d : Dev) (write : List Nat)
    (point_color back_color x y num : Nat) (hy : y < 65536) (h : y + 16 > d.height_) :
    (ShowChar f d write point_color back_color x y num 16).2 = [] := by
  unfold ShowChar
  simp only []
  split
  · rfl
  · have h16 : (y + 16) % U32 = y + 16 := Nat.mod_eq_of_lt (by unfold U32; omega)
    simp only [FillRGBRect]
    rw [if_pos]
    right
    rw [h16]; exact h

/-- Witness for C8: the character 'A' at (0, 65) on the default 160 x 80 screen. -/
theorem C8_glyph_past_bottom_draws_nothing_witness :
    (65 < 65536 ∧ 65 + 16 >
        (Init ⟨.HANNSTAR_PANEL, .SCREEN_0_9, .LANDSCAPE, .FORMAT_RGB565, 0, 0⟩).1.height_)
    ∧ (ShowChar ⟨fun _ _ => 0, fun _ _ => 0x18⟩
        (Init ⟨.HANNSTAR_PANEL, .SCREEN_0_9, .LANDSCAPE, .FORMAT_RGB565, 0, 0⟩).1
        (List.replicate 128 0) 0xF800 0x0000 0 65 0x41 16).2 = [] :=
  ⟨⟨by decide, by decide⟩,
   C8_glyph_past_bottom_draws_nothing _ _ _ _ _ _ _ _ (by decide) (by decide)⟩

/-- C9 (failing input): on the default configuration (160 x 80) the 8 x 16 cell at
(152, 58) lies within the display, 152 + 8 = 160 and 58 + 16 = 74, and `FillRGBRect`
accepts that rectangle; yet `ShowChar` for 'r' there returns from inside its loops
(`x++` reaches `width_` after the last column) and makes no call, whatever the font
and the buffer content.  It is the last glyph of the constructor's status string. -/
theorem C9_glyph_at_right_edge_is_dropped (f : Font) (write pData : List Nat) :
    152 + 8 ≤ (Init ⟨.HANNSTAR_PANEL, .SCREEN_0_9, .LANDSCAPE, .FORMAT_RGB565, 0, 0⟩).1.width_
    ∧ 58 + 16 ≤ (Init ⟨.HANNSTAR_PANEL, .SCREEN_0_9, .LANDSCAPE, .FORMAT_RGB565, 0, 0⟩).1.height_
    ∧ (ShowChar f (Init ⟨.HANNSTAR_PANEL, .SCREEN_0_9, .LANDSCAPE, .FORMAT_RGB565, 0, 0⟩).1
        write 0xF800 0x0000 152 58 0x72 16).2 = []
    ∧ FillRGBRect (Init ⟨.HANNSTAR_PANEL, .SCREEN_0_9, .LANDSCAPE, .FORMAT_RGB565, 0, 0⟩).1
        152 58 pData 8 16 ≠ [] := by
  have hd : (Init ⟨.HANNSTAR_PANEL, .SCREEN_0_9, .LANDSCAPE, .FORMAT_RGB565, 0, 0⟩).1
      = ⟨.HANNSTAR_PANEL, .SCREEN_0_9, .LANDSCAPE, .FORMAT_RGB565, 160, 80⟩ := rfl
  rw [hd]
  refine ⟨by decide, by decide, ?_, ?_⟩
  · exact ShowChar16_edge_dropped f _ write 0xF800 0x0000 152 58 0x72
      (by decide) (by decide) (by decide) (by decide) (Or.inl (by decide))
  · rw [FillRGBRect_accepted _ _ _ _ _ _ (by decide) (by decide) (by decide) (by decide)]
    simp [SetWindow, WriteReg]

set_option maxHeartbeats 4000000 in
/-- C10: for every configuration the trace of `Init` begins with the software-reset
command (0x01, no data), a delay of 120, the software-reset command again and a
second delay of 120; the rest of bring-up contains no delay and no software-reset
command, so bring-up has exactly two delays, both of 120, and exactly two resets. -/
theorem C10_two_resets_two_delays (d : Dev) :
    ∃ rest, (Init d).2 = WriteReg SW_RESET [] ++ [Event.sleep 120] ++
                          WriteReg SW_RESET [] ++ [Event.sleep 120] ++ rest
      ∧ WriteReg SW_RESET [] = [Event.cs false, Event.rs false, Event.spi [0x01],
                                 Event.rs true, Event.cs true]
      ∧ delays rest = []
      ∧ SW_RESET ∉ commandCodes rest
      ∧ delays (Init d).2 = [120, 120]
      ∧ (commandCodes (Init d).2).count SW_RESET = 2
      ∧ (commandCodes (Init d).2).take 2 = [SW_RESET, SW_RESET] := by
  rcases d with ⟨p, t, o, c, w, h⟩
  rw [Init_trace_frame]
  refine ⟨((Init ⟨p, t, o, c, 0, 0⟩).2).drop 12, ?_, rfl, ?_, ?_, ?_, ?_, ?_⟩
  · cases p <;> rfl
  all_goals cases p <;> cases t <;> cases o <;> cases c <;> decide!

/-- C11: bring-up issues exactly one display-inversion command; it is
display-inversion-on (0x21) exactly when the panel is Hannstar and
display-inversion-off (0x20) for the other panel, and the command of the other
polarity does not occur in the trace of `Init`. -/
theorem C11_one_inversion_command (d : Dev) :
    (commandCodes (Init d).2).filter (fun c => c = DISPLAY_INVERSION_ON ∨ c = DISPLAY_INVERSION_OFF)
      = [if d.panel_ = PanelType.HANNSTAR_PANEL then DISPLAY_INVERSION_ON
         else DISPLAY_INVERSION_OFF]
    ∧ (DISPLAY_INVERSION_ON ∈ commandCodes (Init d).2 ↔ d.panel_ = PanelType.HANNSTAR_PANEL)
    ∧ (DISPLAY_INVERSION_OFF ∈ commandCodes (Init d).2 ↔ d.panel_ ≠ PanelType.HANNSTAR_PANEL)
    ∧ (commandCodes (Init d).2).count DISPLAY_INVERSION_ON
        = (if d.panel_ = PanelType.HANNSTAR_PANEL then 1 else 0)
    ∧ (commandCodes (Init d).2).count DISPLAY_INVERSION_OFF
        = (if d.panel_ = PanelType.HANNSTAR_PANEL then 0 else 1)
    ∧ DISPLAY_INVERSION_ON = 0x21 ∧ DISPLAY_INVERSION_OFF = 0x20 := by
  rw [Init_commandCodes]
  rcases d with ⟨p, t, o, c, w, h⟩
  dsimp only
  cases p <;> decide

/-- C17: for every configuration the command bytes of bring-up are, in this order,
0x01, 0x01, 0x11, 0xB1, 0xB2, 0xB3, 0xB4, 0xC0, 0xC1, 0xC2, 0xC3, 0xC4, 0xC5, the
display-inversion command (0x21 or 0x20), 0x3A, 0xE0, 0xE1, 0x13, 0x29, 0x2A, 0x2B,
0x36: 22 commands; the color-mode command carries the configured pixel-format code
as its single data byte, and each gamma command is followed by exactly 16 data bytes. -/
theorem C17_bring_up_command_sequence (d : Dev) :
    commandCodes (Init d).2
      = [0x01, 0x01, 0x11, 0xB1, 0xB2, 0xB3, 0xB4, 0xC0, 0xC1, 0xC2, 0xC3, 0xC4, 0xC5,
         (if d.panel_ = PanelType.HANNSTAR_PANEL then 0x21 else 0x20),
         0x3A, 0xE0, 0xE1, 0x13, 0x29, 0x2A, 0x2B, 0x36]
    ∧ (commandCodes (Init d).2).length = 22
    ∧ (commandFrames (busView true (Init d).2)).map (fun fr => fr.1)
        = (commandCodes (Init d).2).map (fun c => [c])
    ∧ (commandFrames (busView true (Init d).2)).filter (fun fr => fr.1 = [COLOR_MODE])
        = [([COLOR_MODE], [d.color_coding_.toNat])]
    ∧ ((commandFrames (busView true (Init d).2)).filter
          (fun fr => fr.1 = [PV_GAMMA_CTRL] ∨ fr.1 = [NV_GAMMA_CTRL])).map
          (fun fr => (fr.1, fr.2.length))
        = [([0xE0], 16), ([0xE1], 16)] := by
  have hc := Init_commandCodes d
  obtain ⟨hf, h3a⟩ := Init_frames d
  have hmap : (commandFrames (busView true (Init d).2)).map (fun fr => fr.1)
      = ((commandFrames (busView true (Init d).2)).map (fun fr => (fr.1, fr.2.length))).map
          (fun q => q.1) := by
    rw [List.map_map]; rfl
  have hg : ((commandFrames (busView true (Init d).2)).filter
        (fun fr => fr.1 = [PV_GAMMA_CTRL] ∨ fr.1 = [NV_GAMMA_CTRL])).map
        (fun fr => (fr.1, fr.2.length))
      = (((commandFrames (busView true (Init d).2)).map (fun fr => (fr.1, fr.2.length))).filter
          (fun q => q.1 = [PV_GAMMA_CTRL] ∨ q.1 = [NV_GAMMA_CTRL])) := by
    rw [List.filter_map]; rfl
  refine ⟨hc, ?_, ?_, h3a, ?_⟩
  · rw [hc]; rfl
  · rw [hmap, hf, hc]
    rcases d with ⟨p, t, o, c, w, h⟩
    cases p <;> rfl
  · rw [hg, hf]
    rcases d with ⟨p, t, o, c, w, h⟩
    dsimp only
    cases p <;> decide

/-- C12: for every rectangle accepted after bring-up, `FillRGBRect` makes the same
`SetWindow` call as `FillRect` for that rectangle (same column and row address
bytes, then the write-to-frame-memory command without data) and then exactly one
data transfer, whatever the size, whose payload is the first width * height * 2
bytes of the caller's buffer, unchanged and in order. -/
theorem C12_fill_buffer_single_transfer (d0 : Dev) (x y w h c : Nat) (pData : List Nat)
    (hx : x + w ≤ (Init d0).1.width_) (hy : y + h ≤ (Init d0).1.height_) :
    FillRGBRect (Init d0).1 x y pData w h
      = SetWindow (Init d0).1 x y ((x + w + (U32 - 1)) % U32) ((y + h + (U32 - 1)) % U32)
          ++ SendData (pData.take (w * h * 2))
    ∧ (∃ stream, FillRect (Init d0).1 x y w h c
        = SetWindow (Init d0).1 x y ((x + w + (U32 - 1)) % U32) ((y + h + (U32 - 1)) % U32)
            ++ stream)
    ∧ (∃ rest, SetWindow (Init d0).1 x y ((x + w + (U32 - 1)) % U32) ((y + h + (U32 - 1)) % U32)
        = rest ++ WriteReg WRITE_RAM []
        ∧ WriteReg WRITE_RAM [] = [Event.cs false, Event.rs false, Event.spi [0x2C],
                                    Event.rs true, Event.cs true])
    ∧ sentWindow (FillRGBRect (Init d0).1 x y pData w h)
        = sentWindow (FillRect (Init d0).1 x y w h c)
    ∧ sentWindow (FillRGBRect (Init d0).1 x y pData w h) ≠ none
    ∧ commandCodes (FillRGBRect (Init d0).1 x y pData w h) = [CASET, RASET, WRITE_RAM]
    ∧ ramWrites (FillRGBRect (Init d0).1 x y pData w h) = [pData.take (w * h * 2)]
    ∧ (w * h * 2 ≤ pData.length → (pData.take (w * h * 2)).length = w * h * 2) := by
  obtain ⟨hW, hH⟩ := Init_dims_le d0
  have k1 := FillRect_accepted (Init d0).1 x y w h c (by omega) (by omega) hx hy
  have k2 := FillRGBRect_accepted (Init d0).1 x y pData w h (by omega) (by omega) hx hy
  have b1 : x < U32 := by unfold U32; omega
  have b2 : y < U32 := by unfold U32; omega
  have b3 : (x + w + (U32 - 1)) % U32 < U32 := Nat.mod_lt _ (by decide)
  have b4 : (y + h + (U32 - 1)) % U32 < U32 := Nat.mod_lt _ (by decide)
  refine ⟨k2, ⟨_, k1⟩, ⟨_, rfl, rfl⟩, ?_, ?_, ?_, ?_, ?_⟩
  · rw [k1, k2, sentWindow_SetWindow _ _ _ _ _ _ b1 b2 b3 b4,
      sentWindow_SetWindow _ _ _ _ _ _ b1 b2 b3 b4]
  · rw [k2, sentWindow_SetWindow _ _ _ _ _ _ b1 b2 b3 b4]
    exact Option.some_ne_none _
  · rw [k2]; exact commandCodes_SetWindow_one _ _ _ _ _ _ b1 b2 b3 b4
  · rw [k2]; exact ramWrites_SetWindow_one _ _ _ _ _ _ b1 b2 b3 b4
  · intro hl
    rw [List.length_take]; omega

/-- Witness for C12: a 6 x 12 rectangle at (10, 20) on the default configuration,
with a 144-byte buffer. -/
theorem C12_fill_buffer_single_transfer_witness :
    (10 + 6 ≤ (Init ⟨.HANNSTAR_PANEL, .SCREEN_0_9, .LANDSCAPE, .FORMAT_RGB565, 0, 0⟩).1.width_
      ∧ 20 + 12 ≤ (Init ⟨.HANNSTAR_PANEL, .SCREEN_0_9, .LANDSCAPE, .FORMAT_RGB565, 0, 0⟩).1.height_)
    ∧ ramWrites (FillRGBRect
        (Init ⟨.HANNSTAR_PANEL, .SCREEN_0_9, .LANDSCAPE, .FORMAT_RGB565, 0, 0⟩).1
        10 20 (List.range 200) 6 12) = [(List.range 200).take (6 * 12 * 2)] :=
  ⟨⟨by decide, by decide⟩,
   (C12_fill_buffer_single_transfer ⟨.HANNSTAR_PANEL, .SCREEN_0_9, .LANDSCAPE, .FORMAT_RGB565, 0, 0⟩
      10 20 6 12 0 (List.range 200) (by decide) (by decide)).2.2.2.2.2.2.1⟩

/-- C14: from the idle state of the constructor (chip-select high, data/command
select high), in the trace of every sequence of `WriteReg` and `SendData` calls each
call makes exactly the transfers of the framing contract: every transfer with
chip-select low, the command byte with data/command-select low, every data payload
with data/command-select high; and after each call both lines are high again. -/
theorem C14_framing_line_levels (calls : List Call) :
    lineView (true, true) (runCalls calls) = calls.flatMap Call.contract
    ∧ (∀ t ∈ lineView (true, true) (runCalls calls), t.1 = false)
    ∧ (∀ k, linesAfter (true, true) (runCalls (calls.take k)) = (true, true))
    ∧ linesAfter (true, true) (runCalls calls) = (true, true)
    ∧ (∀ reg data, Call.contract (Call.writeReg reg data)
          = (false, false, [reg]) :: (if data.length > 0 then [(false, true, data)] else []))
    ∧ (∀ data, Call.contract (Call.sendData data) = [(false, true, data)])
    ∧ (∀ l, linesAfter l [Event.cs true, Event.rs true] = (true, true)) := by
  refine ⟨(runCalls_idle calls).1, ?_, fun k => (runCalls_idle _).2, (runCalls_idle calls).2,
    fun _ _ => rfl, fun _ => rfl, fun _ => rfl⟩
  intro t ht
  rw [(runCalls_idle calls).1] at ht
  obtain ⟨c, _, hc⟩ := List.mem_flatMap.1 ht
  cases c with
  | writeReg reg data =>
    simp only [Call.contract, List.mem_cons] at hc
    rcases hc with hc | hc
    · rw [hc]
    · split at hc
      · simp only [List.mem_singleton] at hc; rw [hc]
      · simp at hc
  | sendData data =>
    simp only [Call.contract, List.mem_singleton] at hc
    rw [hc]

/-- C20: for every configuration after bring-up and every accepted `FillRect` or
`FillRGBRect` request with width and height at least 1, the column-address and
row-address bytes sent decode, big-endian, to x0 = x + dx, x1 = x + width - 1 + dx,
y0 = y + dy, y1 = y + height - 1 + dy with (dx, dy) the offset of the configuration;
all four are below 2^16, the window holds width * height pixels, and that is the
number of pixels (two bytes each) the call then writes to frame memory. -/
theorem C20_window_bytes_decode (d0 : Dev) (x y w h c : Nat) (pData : List Nat)
    (hw : 1 ≤ w) (hh : 1 ≤ h)
    (hx : x + w ≤ (Init d0).1.width_) (hy : y + h ≤ (Init d0).1.height_)
    (hlen : w * h * 2 ≤ pData.length) :
    ∃ win, sentWindow (FillRect (Init d0).1 x y w h c) = some win
      ∧ sentWindow (FillRGBRect (Init d0).1 x y pData w h) = some win
      ∧ win.x0 = x + (windowOffset d0).1 ∧ win.x1 = x + w - 1 + (windowOffset d0).1
      ∧ win.y0 = y + (windowOffset d0).2 ∧ win.y1 = y + h - 1 + (windowOffset d0).2
      ∧ (win.x0 < 65536 ∧ win.x1 < 65536 ∧ win.y0 < 65536 ∧ win.y1 < 65536)
      ∧ (win.x1 - win.x0 + 1) * (win.y1 - win.y0 + 1) = w * h
      ∧ (ramWrites (FillRect (Init d0).1 x y w h c)).flatten.length = 2 * (w * h)
      ∧ (ramWrites (FillRGBRect (Init d0).1 x y pData w h)).flatten.length = 2 * (w * h) := by
  obtain ⟨hW, hH⟩ := Init_dims_le d0
  obtain ⟨o1, o2⟩ := windowOffset_le d0
  have k1 := FillRect_accepted (Init d0).1 x y w h c (by omega) (by omega) hx hy
  have k2 := FillRGBRect_accepted (Init d0).1 x y pData w h (by omega) (by omega) hx hy
  refine ⟨{ x0 := x + (windowOffset d0).1, x1 := x + w - 1 + (windowOffset d0).1,
            y0 := y + (windowOffset d0).2, y1 := y + h - 1 + (windowOffset d0).2 },
          ?_, ?_, rfl, rfl, rfl, rfl, ?_, ?_, ?_, ?_⟩
  · rw [k1, sentWindow_rect _ _ _ _ _ _ (by omega) (by omega) hw hh hx hy, windowOffset_Init]
  · rw [k2, sentWindow_rect _ _ _ _ _ _ (by omega) (by omega) hw hh hx hy, windowOffset_Init]
  · dsimp only; omega
  · dsimp only
    rw [show x + w - 1 + (windowOffset d0).1 - (x + (windowOffset d0).1) + 1 = w by omega,
      show y + h - 1 + (windowOffset d0).2 - (y + (windowOffset d0).2) + 1 = h by omega]
  · exact FillRect_bytes _ _ _ _ _ _ (by omega) (by omega) hx hy
  · rw [k2, ramWrites_SetWindow_one _ _ _ _ _ _ (by unfold U32; omega) (by unfold U32; omega)
      (Nat.mod_lt _ (by decide)) (Nat.mod_lt _ (by decide))]
    simp only [List.flatten_cons, List.flatten_nil, List.append_nil]
    rw [List.length_take]; omega

/-- Witness for C20: a 100 x 30 rectangle at (10, 20) on the default configuration,
whose offset is (1, 26). -/
theorem C20_window_bytes_decode_witness :
    (1 ≤ 100 ∧ 1 ≤ 30
      ∧ 10 + 100 ≤ (Init ⟨.HANNSTAR_PANEL, .SCREEN_0_9, .LANDSCAPE, .FORMAT_RGB565, 0, 0⟩).1.width_
      ∧ 20 + 30 ≤ (Init ⟨.HANNSTAR_PANEL, .SCREEN_0_9, .LANDSCAPE, .FORMAT_RGB565, 0, 0⟩).1.height_
      ∧ 100 * 30 * 2 ≤ (List.replicate 6000 0).length)
    ∧ ∃ win, sentWindow (FillRect
          (Init ⟨.HANNSTAR_PANEL, .SCREEN_0_9, .LANDSCAPE, .FORMAT_RGB565, 0, 0⟩).1
          10 20 100 30 0xF800) = some win
        ∧ win.x0 = 11 ∧ win.x1 = 110 ∧ win.y0 = 46 ∧ win.y1 = 75 := by
  refine ⟨⟨by decide, by decide, by decide, by decide,
    by rw [List.length_replicate]⟩, ?_⟩
  obtain ⟨win, h1, _, h3, h4, h5, h6, _⟩ :=
    C20_window_bytes_decode ⟨.HANNSTAR_PANEL, .SCREEN_0_9, .LANDSCAPE, .FORMAT_RGB565, 0, 0⟩
      10 20 100 30 0xF800 (List.replicate 6000 0) (by decide) (by decide) (by decide)
      (by decide) (by rw [List.length_replicate])
  exact ⟨win, h1, h3, h4, h5, h6⟩

set_option maxRecDepth 100000 in
/-- C16 (failing input): on the BOE panel, 0.96" screen, landscape (160 x 80),
`SetDisplayWindow(0, 0)` of bring-up adds the offset (1, 24) and programs the
window (1, 24)-(160, 103), while `SetWindow` adds (0, 24) and the full-screen
`FillRect` programs (0, 24)-(159, 103): the two offsets differ in x. -/
theorem C16_boe_landscape_offsets_differ (c : Nat) :
    (∃ pre v, (Init ⟨.BOE_PANEL, .SCREEN_0_9, .LANDSCAPE, .FORMAT_RGB565, 0, 0⟩).2
        = pre ++ (SetDisplayWindow
            (Init ⟨.BOE_PANEL, .SCREEN_0_9, .LANDSCAPE, .FORMAT_RGB565, 0, 0⟩).1 0 0
          ++ WriteReg MADCTL [v]))
    ∧ sentWindow (SetDisplayWindow
        (Init ⟨.BOE_PANEL, .SCREEN_0_9, .LANDSCAPE, .FORMAT_RGB565, 0, 0⟩).1 0 0)
        = some { x0 := 1, x1 := 160, y0 := 24, y1 := 103 }
    ∧ sentWindow (FillRect (Init ⟨.BOE_PANEL, .SCREEN_0_9, .LANDSCAPE, .FORMAT_RGB565, 0, 0⟩).1
        0 0 160 80 c) = some { x0 := 0, x1 := 159, y0 := 24, y1 := 103 }
    ∧ (Init ⟨.BOE_PANEL, .SCREEN_0_9, .LANDSCAPE, .FORMAT_RGB565, 0, 0⟩).1.width_ = 160
    ∧ (Init ⟨.BOE_PANEL, .SCREEN_0_9, .LANDSCAPE, .FORMAT_RGB565, 0, 0⟩).1.height_ = 80 := by
  have hd : (Init ⟨.BOE_PANEL, .SCREEN_0_9, .LANDSCAPE, .FORMAT_RGB565, 0, 0⟩).1
      = ⟨.BOE_PANEL, .SCREEN_0_9, .LANDSCAPE, .FORMAT_RGB565, 160, 80⟩ := rfl
  rw [hd]
  have hpre : (Init ⟨.BOE_PANEL, .SCREEN_0_9, .LANDSCAPE, .FORMAT_RGB565, 0, 0⟩).2
      = ((Init ⟨.BOE_PANEL, .SCREEN_0_9, .LANDSCAPE, .FORMAT_RGB565, 0, 0⟩).2).take
          (((Init ⟨.BOE_PANEL, .SCREEN_0_9, .LANDSCAPE, .FORMAT_RGB565, 0, 0⟩).2).length - 40)
        ++ (SetDisplayWindow ⟨.BOE_PANEL, .SCREEN_0_9, .LANDSCAPE, .FORMAT_RGB565, 160, 80⟩ 0 0
          ++ WriteReg MADCTL [0x60]) := by
    decide!
  have hwin : sentWindow (SetDisplayWindow
      ⟨.BOE_PANEL, .SCREEN_0_9, .LANDSCAPE, .FORMAT_RGB565, 160, 80⟩ 0 0)
      = some { x0 := 1, x1 := 160, y0 := 24, y1 := 103 } := by
    decide!
  refine ⟨⟨_, _, hpre⟩, hwin, ?_, rfl, rfl⟩
  rw [FillRect_accepted _ _ _ _ _ _ (by decide) (by decide) (by decide) (by decide),
    sentWindow_rect _ _ _ _ _ _ (by decide) (by decide) (by decide) (by decide) (by decide)
      (by decide)]
  rfl

/-- C13: for every text, `ShowString` stops at the first byte outside 0x20..0x7E:
its result (buffer and trace) is that of the call on the longest all-printable
prefix of the text, the characters handed to `ShowChar` are a prefix of that prefix,
and each lies in 0x20..0x7E, so its glyph-table index is in 0..94. -/
theorem C13_string_stops_at_non_printable (f : Font) (d : Dev) (write : List Nat)
    (point_color back_color x y width height size : Nat) (data : List Nat) :
    ShowString f d write point_color back_color x y width height size data
      = ShowString f d write point_color back_color x y width height size
          (data.takeWhile printable)
    ∧ (ShowString f d write point_color back_color x y width height size data).2
      = (ShowString f d write point_color back_color x y width height size
          (data.takeWhile printable)).2
    ∧ ShowString f d write point_color back_color x y width height size data
      = drawCalls f d point_color back_color size
          (ShowStringCalls x y width height size data) write
    ∧ (ShowStringCalls x y width height size data).map (fun call => call.2.2)
        <+: data.takeWhile printable
    ∧ (∀ call ∈ ShowStringCalls x y width height size data,
        0x20 ≤ call.2.2 ∧ call.2.2 ≤ 0x7E ∧ (call.2.2 + 256 - 32) % 256 ≤ 94)
    ∧ (∀ c, printable c = true ↔ (0x20 ≤ c ∧ c ≤ 0x7E)) := by
  have e : ShowString f d write point_color back_color x y width height size data
      = ShowString f d write point_color back_color x y width height size
          (data.takeWhile printable) := by
    rw [ShowString_eq_drawCalls, ShowString_eq_drawCalls]
    unfold ShowStringCalls
    rw [stringCalls_takeWhile]
  refine ⟨e, by rw [e], ShowString_eq_drawCalls _ _ _ _ _ _ _ _ _ _ _,
    stringCalls_chars _ _ _ _ _ _ _, ?_, ?_⟩
  · intro call hcall
    have hp := stringCalls_chars (x % 256) ((width + x) % 65536) ((height + y) % 65536) size
      data x y
    have hm : call.2.2 ∈ data.takeWhile printable :=
      hp.subset (List.mem_map.2 ⟨call, hcall, rfl⟩)
    have := mem_takeWhile_printable _ _ hm
    omega
  · intro c
    simp only [printable, decide_eq_true_eq]
    omega

/-- C19 (failing input): `ShowString(.., x = 300, y = 0, width = 16, height = 32,
size = 16, "ABC")`.  Two glyphs fit a line (k = 2), so the claim puts the third
character at (300, 16); `ShowString` keeps the start column in a `uint8_t`, the
wrap returns to 300 mod 256 = 44, and the third character is handed to `ShowChar`
at (44, 16).  On the default 160 x 80 screen the first two glyphs are off screen
and the third is drawn, in the window of column 44. -/
theorem C19_start_column_truncated (f : Font) (point_color back_color : Nat) :
    ShowStringCalls 300 0 16 32 16 [0x41, 0x42, 0x43]
      = [(300, 0, 0x41), (308, 0, 0x42), (44, 16, 0x43)]
    ∧ (300 < 65536 ∧ 300 + 16 < 65536 ∧ 0 + 32 < 65536 ∧ 2 ≤ 16 ∧ 1 ≤ 16
        ∧ (2 / ((16 + 16 / 2 - 1) / (16 / 2))) * 16 < 32)
    ∧ (300 + (2 % ((16 + 16 / 2 - 1) / (16 / 2))) * (16 / 2),
        0 + (2 / ((16 + 16 / 2 - 1) / (16 / 2))) * 16) = (300, 16)
    ∧ sentWindow (ShowString f
          (Init ⟨.HANNSTAR_PANEL, .SCREEN_0_9, .LANDSCAPE, .FORMAT_RGB565, 0, 0⟩).1
          (List.replicate 128 0) point_color back_color 300 0 16 32 16 [0x41, 0x42, 0x43]).2
        = some { x0 := 45, x1 := 52, y0 := 42, y1 := 57 } := by
  have hcalls : ShowStringCalls 300 0 16 32 16 [0x41, 0x42, 0x43]
      = [(300, 0, 0x41), (308, 0, 0x42), (44, 16, 0x43)] := by decide
  have hd : (Init ⟨.HANNSTAR_PANEL, .SCREEN_0_9, .LANDSCAPE, .FORMAT_RGB565, 0, 0⟩).1
      = ⟨.HANNSTAR_PANEL, .SCREEN_0_9, .LANDSCAPE, .FORMAT_RGB565, 160, 80⟩ := rfl
  refine ⟨hcalls, by decide, by decide, ?_⟩
  rw [hd, ShowString_eq_drawCalls, hcalls]
  simp only [drawCalls]
  have e1 := ShowChar16_edge_dropped f
    ⟨.HANNSTAR_PANEL, .SCREEN_0_9, .LANDSCAPE, .FORMAT_RGB565, 160, 80⟩
    (List.replicate 128 0) point_color back_color 300 0 0x41
    (by decide) (by decide) (by decide) (by decide) (Or.inl (by decide))
  have l1 := ShowChar_length f
    ⟨.HANNSTAR_PANEL, .SCREEN_0_9, .LANDSCAPE, .FORMAT_RGB565, 160, 80⟩
    (List.replicate 128 0) point_color back_color 300 0 0x41 16
  rw [List.length_replicate] at l1
  generalize (ShowChar f ⟨.HANNSTAR_PANEL, .SCREEN_0_9, .LANDSCAPE, .FORMAT_RGB565, 160, 80⟩
    (List.replicate 128 0) point_color back_color 300 0 0x41 16) = r1 at e1 l1 ⊢
  have e2 := ShowChar16_edge_dropped f
    ⟨.HANNSTAR_PANEL, .SCREEN_0_9, .LANDSCAPE, .FORMAT_RGB565, 160, 80⟩
    r1.1 point_color back_color 308 0 0x42
    (by decide) (by decide) (by decide) (by decide) (Or.inl (by decide))
  have l2 := ShowChar_length f
    ⟨.HANNSTAR_PANEL, .SCREEN_0_9, .LANDSCAPE, .FORMAT_RGB565, 160, 80⟩
    r1.1 point_color back_color 308 0 0x42 16
  rw [l1] at l2
  generalize (ShowChar f ⟨.HANNSTAR_PANEL, .SCREEN_0_9, .LANDSCAPE, .FORMAT_RGB565, 160, 80⟩
    r1.1 point_color back_color 308 0 0x42 16) = r2 at e2 l2 ⊢
  obtain ⟨buf, hbuf, _, _⟩ := ShowChar16_interior f
    ⟨.HANNSTAR_PANEL, .SCREEN_0_9, .LANDSCAPE, .FORMAT_RGB565, 160, 80⟩
    r2.1 point_color back_color 44 16 0x43 l2 (by decide) (by decide) (by decide) (by decide)
  rw [e1, e2, hbuf]
  simp only [List.nil_append, List.append_nil]
  rw [FillRGBRect_accepted _ _ _ _ _ _ (by decide) (by decide) (by decide) (by decide),
    sentWindow_rect _ _ _ _ _ _ (by decide) (by decide) (by decide) (by decide) (by decide)
      (by decide)]
  rfl

/-- C15: for glyph size 12 or 16, whenever `ShowChar` at cursor (x, y) sends its
glyph, its trace and the trace of `FillRect(x, y, size / 2, size, back_color)` on the
same rectangle are the same `SetWindow` call followed by one data transfer of the
same length: same commands, same window bytes, same chunk pattern, only the payload
contents differ.  And the lengths of the payloads `FillRect` writes for an accepted
rectangle are given by its pixel count alone, whatever the color. -/
theorem C15_glyph_and_refill_same_shape (f : Font) (d0 : Dev) (write : List Nat)
    (point_color back_color x y num size : Nat)
    (hs : size = 12 ∨ size = 16) (hx : x < 65536) (hy : y < 65536)
    (hl : write.length = 128)
    (hne : (ShowChar f (Init d0).1 write point_color back_color x y num size).2 ≠ []) :
    (∃ p1 p2,
        (ShowChar f (Init d0).1 write point_color back_color x y num size).2
          = SetWindow (Init d0).1 x y ((x + size / 2 + (U32 - 1)) % U32)
              ((y + size + (U32 - 1)) % U32) ++ SendData p1
        ∧ FillRect (Init d0).1 x y (size / 2) size back_color
          = SetWindow (Init d0).1 x y ((x + size / 2 + (U32 - 1)) % U32)
              ((y + size + (U32 - 1)) % U32) ++ SendData p2
        ∧ p1.length = p2.length ∧ p2.length = size / 2 * size * 2)
    ∧ commandCodes (ShowChar f (Init d0).1 write point_color back_color x y num size).2
        = commandCodes (FillRect (Init d0).1 x y (size / 2) size back_color)
    ∧ sentWindow (ShowChar f (Init d0).1 write point_color back_color x y num size).2
        = sentWindow (FillRect (Init d0).1 x y (size / 2) size back_color)
    ∧ (ramWrites (ShowChar f (Init d0).1 write point_color back_color x y num size).2).map
          List.length
        = (ramWrites (FillRect (Init d0).1 x y (size / 2) size back_color)).map List.length
    ∧ (∀ x' y' w h c, x' + w ≤ (Init d0).1.width_ → y' + h ≤ (Init d0).1.height_ →
        (ramWrites (FillRect (Init d0).1 x' y' w h c)).map List.length
          = (chunkPlan (w * h)).map (fun k => 2 * k)) := by
  obtain ⟨hW, hH⟩ := Init_dims_le d0
  obtain ⟨buf, hbuf, hbl, hcx, hcy⟩ :=
    ShowChar_flushed f (Init d0).1 write point_color back_color x y num size hl hne
  have hL : (if size = 12 then 6 else 8) = size / 2 := by
    rcases hs with rfl | rfl <;> rfl
  rw [hL] at hbuf hcx
  have hs2 : size / 2 * size = 72 ∨ size / 2 * size = 128 := by
    rcases hs with rfl | rfl
    · left; rfl
    · right; rfl
  have hsz : size / 2 ≤ 8 ∧ size ≤ 16 := by
    rcases hs with rfl | rfl <;> exact ⟨by decide, by decide⟩
  have hcx' : x + size / 2 ≤ (Init d0).1.width_ := by
    rwa [Nat.mod_eq_of_lt (by unfold U32; omega)] at hcx
  have hcy' : y + size ≤ (Init d0).1.height_ := by
    rwa [Nat.mod_eq_of_lt (by unfold U32; omega)] at hcy
  have b1 : x < U32 := by unfold U32; omega
  have b2 : y < U32 := by unfold U32; omega
  have b3 : (x + size / 2 + (U32 - 1)) % U32 < U32 := Nat.mod_lt _ (by decide)
  have b4 : (y + size + (U32 - 1)) % U32 < U32 := Nat.mod_lt _ (by decide)
  have k2 := FillRGBRect_accepted (Init d0).1 x y (bytesOfWords buf) (size / 2) size
    (by omega) (by omega) hcx' hcy'
  have k1 := FillRect_accepted (Init d0).1 x y (size / 2) size back_color
    (by omega) (by omega) hcx' hcy'
  have hplan : chunkPlan (size / 2 * size) = [size / 2 * size] :=
    chunkPlan_small _ (by omega) (by omega)
  rw [hplan] at k1
  simp only [List.flatMap_cons, List.flatMap_nil, List.append_nil] at k1
  have htr : (ShowChar f (Init d0).1 write point_color back_color x y num size).2
      = SetWindow (Init d0).1 x y ((x + size / 2 + (U32 - 1)) % U32)
          ((y + size + (U32 - 1)) % U32)
        ++ SendData ((bytesOfWords buf).take (size / 2 * size * 2)) := by
    rw [hbuf]; exact k2
  have hp1 : ((bytesOfWords buf).take (size / 2 * size * 2)).length = size / 2 * size * 2 := by
    rw [List.length_take, bytesOfWords_length, hbl]; omega
  have hp2 : (pixels ((back_color >>> 8) &&& 0xFF) (back_color &&& 0xFF)
      (size / 2 * size)).length = size / 2 * size * 2 := by
    rw [pixels_length]; omega
  refine ⟨⟨_, _, htr, k1, by rw [hp1, hp2], hp2⟩, ?_, ?_, ?_, ?_⟩
  · rw [htr, k1, commandCodes_SetWindow_one _ _ _ _ _ _ b1 b2 b3 b4,
      commandCodes_SetWindow_one _ _ _ _ _ _ b1 b2 b3 b4]
  · rw [htr, k1, sentWindow_SetWindow _ _ _ _ _ _ b1 b2 b3 b4,
      sentWindow_SetWindow _ _ _ _ _ _ b1 b2 b3 b4]
  · rw [htr, k1, ramWrites_SetWindow_one _ _ _ _ _ _ b1 b2 b3 b4,
      ramWrites_SetWindow_one _ _ _ _ _ _ b1 b2 b3 b4]
    simp only [List.map_cons, List.map_nil, hp1, hp2]
  · intro x' y' w h c hx' hy'
    rw [FillRect_accepted _ _ _ _ _ _ (by omega) (by omega) hx' hy',
      ramWrites_SetWindow_chunks _ _ _ _ _ _ _ (by unfold U32; omega) (by unfold U32; omega)
        (Nat.mod_lt _ (by decide)) (Nat.mod_lt _ (by decide)), List.map_map]
    apply List.map_congr_left
    intro k _
    simp only [Function.comp, pixels_length]

/-- Witness for C15: the character 'A' at (0, 0) on the default configuration, for
a font whose glyph bytes are all 0x18. -/
theorem C15_glyph_and_refill_same_shape_witness :
    ((16 = 12 ∨ 16 = 16) ∧ 0 < 65536 ∧ 0 < 65536 ∧ (List.replicate 128 0).length = 128
      ∧ (ShowChar ⟨fun _ _ => 0x18, fun _ _ => 0x18⟩
          (Init ⟨.HANNSTAR_PANEL, .SCREEN_0_9, .LANDSCAPE, .FORMAT_RGB565, 0, 0⟩).1
          (List.replicate 128 0) 0xF800 0x0000 0 0 0x41 16).2 ≠ [])
    ∧ commandCodes (ShowChar ⟨fun _ _ => 0x18, fun _ _ => 0x18⟩
          (Init ⟨.HANNSTAR_PANEL, .SCREEN_0_9, .LANDSCAPE, .FORMAT_RGB565, 0, 0⟩).1
          (List.replicate 128 0) 0xF800 0x0000 0 0 0x41 16).2
        = commandCodes (FillRect
          (Init ⟨.HANNSTAR_PANEL, .SCREEN_0_9, .LANDSCAPE, .FORMAT_RGB565, 0, 0⟩).1
          0 0 (16 / 2) 16 0x0000) :=
  ⟨⟨Or.inr rfl, by decide, by decide, List.length_replicate _ _, by decide!⟩,
   (C15_glyph_and_refill_same_shape ⟨fun _ _ => 0x18, fun _ _ => 0x18⟩
      ⟨.HANNSTAR_PANEL, .SCREEN_0_9, .LANDSCAPE, .FORMAT_RGB565, 0, 0⟩
      (List.replicate 128 0) 0xF800 0x0000 0 0 0x41 16 (Or.inr rfl) (by decide) (by decide)
      (List.length_replicate _ _) (by decide!)).2.1⟩

end ST7735
